import Mathlib

/-!
# Multibuffer region-synchronization engine: a shallow embedding

This file embeds the core of `src/lib.rs` (the multibuffer plugin's region
synchronization engine) as pure Lean functions over an explicit host state.

Host model (the Neovim side, an external collaborator per the spec):
* A buffer is a list of lines, a display name, and a list of extmarks
  tagged with the namespace they were created under.  An invalid (deleted)
  buffer is simply absent from the buffer table.
* Extmark ids are allocated from a single monotone counter (`nextMarkId`),
  so auto-allocated decoration ids never collide with region ids.
* `nvim_buf_set_lines` with `strict = false` clamps the range to the buffer
  and shifts the positions of surviving extmarks by the length delta.
* `nvim_buf_set_extmark` with `strict = false` clamps `row`/`end_row` to the
  buffer length.  `setExtmarkFuel` injects host-call failures (`none` means
  the host never fails), modelling the spec's structural failure tier
  "a required host call is unsupported".
* The `modified` buffer option is modelled as a validity-checked no-op,
  since nothing in the engine reads it back.
* The thread-local `RefCell` borrow of the `MULTIBUFFERS` registry is
  modelled by the `mbBorrowed` flag: an operation that mutably re-borrows the
  registry while the flag is set panics (`borrowPanic`), exactly as the
  `RefCell` does at runtime.
-/

namespace Multibuffer

/-- Visual payload carried by an extmark: a plain range mark (region marks),
a `virt_lines` block (region headers), or a margin sign (line numbers). -/
inductive Deco : Type
  | plain : Deco
  | virtLines : Bool → List (List (String × String)) → Deco
  | sign : String → String → Nat → Deco
deriving DecidableEq, Repr

/-- An extmark: stable id, current row, optional end row, payload. -/
structure Mark where
  id : Nat
  row : Nat
  endRow : Option Nat
  deco : Deco
deriving DecidableEq, Repr

/-- One buffer of the host: name, lines, and extmarks tagged by namespace. -/
structure BufferState where
  name : String
  lines : List String
  marks : List (Nat × Mark)
deriving DecidableEq, Repr

/-- `RegionState` from the source: the source buffer handle and the extmark
in the source buffer tracking the original text. -/
structure RegionState where
  source_buf_handle : Int
  source_extmark : Nat
deriving DecidableEq, Repr

/-- `MultibufState` from the source: the virtual document's buffer handle,
its ordered region list, and its private decoration namespace. -/
structure MultibufState where
  handle : Int
  regions : List RegionState
  ns_id : Nat
deriving DecidableEq, Repr

/-- `MultibufRegion` from the source: a caller-supplied inclusive row range. -/
structure MultibufRegion where
  start_row : Nat
  end_row : Nat
deriving DecidableEq, Repr

/-- Arguments of `multibuf_add_buffer`. -/
structure AddBufferArgs where
  multibuf : Int
  source_buf : Int
  regions : List MultibufRegion
deriving DecidableEq, Repr

/-- Result record of `multibuf_get_context`. -/
structure ContextResult where
  buf : Int
  line : Nat
deriving DecidableEq, Repr

/-- The whole process state: host buffers plus the plugin's thread-local
registries (`MULTIBUFFERS`, `SOURCE_TO_MBUF`, `IS_SYNCING`) and the host
model's allocation counters and fault-injection fuel. -/
structure HostState where
  buffers : List (Int × BufferState)
  nextBufHandle : Int
  nextMarkId : Nat
  nextNsId : Nat
  setExtmarkFuel : Option Nat
  multibuffers : List (Int × MultibufState)
  sourceToMbuf : List (Int × List Int)
  isSyncing : Bool
  mbBorrowed : Bool
deriving DecidableEq, Repr

/-- First-match association-list lookup (the model of `HashMap::get`). -/
def assocGet {β : Type} (k : Int) : List (Int × β) → Option β
  | [] => none
  | p :: rest => if p.1 = k then some p.2 else assocGet k rest

/-- First-match association-list update/insert (the model of
`HashMap::insert` on a map whose keys are unique). -/
def assocSet {β : Type} (k : Int) (v : β) : List (Int × β) → List (Int × β)
  | [] => [(k, v)]
  | p :: rest => if p.1 = k then (k, v) :: rest else p :: assocSet k v rest

/-- Look a buffer up by handle; `none` models an invalid/deleted buffer. -/
def getBuf (s : HostState) (h : Int) : Option BufferState :=
  assocGet h s.buffers

/-- Store a buffer under a handle. -/
def setBuf (s : HostState) (h : Int) (b : BufferState) : HostState :=
  { s with buffers := assocSet h b s.buffers }

/-- `Buffer::is_valid`. -/
def bufValid (s : HostState) (h : Int) : Bool :=
  (getBuf s h).isSome

/-- `buf.get_name()` with the source's `unwrap_or("Unknown")`. -/
def bufName (s : HostState) (h : Int) : String :=
  match getBuf s h with
  | some b => b.name
  | none => "Unknown"

/-- `usize::MAX`, used by the source for whole-buffer ranges. -/
def USIZE_MAX : Nat := 18446744073709551615

/-- The panic message of a `RefCell` double mutable borrow. -/
def borrowPanic : String := "already mutably borrowed: BorrowMutError"

/-- How a position moves when lines `[a, b)` are replaced by `newLen`
lines: positions before the range stay, positions after shift by the
length delta, positions inside clamp to the end of the replacement. -/
def shiftPos (a b newLen p : Nat) : Nat :=
  if p < a then p else if b ≤ p then p - b + a + newLen else min p (a + newLen)

/-- Shift one extmark for a line-range replacement. -/
def shiftMark (a b newLen : Nat) (m : Mark) : Mark :=
  { m with row := shiftPos a b newLen m.row,
           endRow := m.endRow.map (shiftPos a b newLen) }

/-- `buf.get_lines(a..b, false)`: clamped slice; fails on invalid buffer. -/
def getLinesE (s : HostState) (h : Int) (a b : Nat) : Except String (List String) :=
  match getBuf s h with
  | none => .error "Invalid buffer"
  | some buf => .ok ((buf.lines.take b).drop a)

/-- `buf.set_lines(a..b, false, repl)`: replace the clamped range and shift
the buffer's extmarks accordingly; fails on invalid buffer. -/
def setLinesE (s : HostState) (h : Int) (a b : Nat) (repl : List String) :
    Except String Unit × HostState :=
  match getBuf s h with
  | none => (.error "Invalid buffer", s)
  | some buf =>
    let len := buf.lines.length
    let newLines := buf.lines.take a ++ repl ++ buf.lines.drop (max a b)
    let newMarks := buf.marks.map
      (fun p => (p.1, shiftMark (min a len) (min (max a b) len) repl.length p.2))
    (.ok (), setBuf s h { buf with lines := newLines, marks := newMarks })

/-- `buf.set_extmark(ns, row, 0, opts)` with `strict(false)`: clamp the
rows to the buffer length, reuse the given id (repositioning an existing
mark with that id in the namespace) or allocate a fresh one, and append.
`setExtmarkFuel` models host-call failure injection. -/
def setExtmark (s : HostState) (h : Int) (ns row : Nat) (idOpt : Option Nat)
    (endRowOpt : Option Nat) (deco : Deco) : Except String Nat × HostState :=
  match getBuf s h with
  | none => (.error "Invalid buffer", s)
  | some buf =>
    match s.setExtmarkFuel with
    | some 0 => (.error "set_extmark failed", s)
    | fuel =>
      let s₁ := { s with setExtmarkFuel := fuel.map (fun n => n - 1) }
      let len := buf.lines.length
      let row' := min row len
      let endRow' := endRowOpt.map (fun e => min e len)
      match idOpt with
      | some i =>
        let m : Mark := ⟨i, row', endRow', deco⟩
        if buf.marks.any (fun p => decide (p.1 = ns ∧ p.2.id = i)) then
          let newMarks := buf.marks.map (fun p => if p.1 = ns ∧ p.2.id = i then (ns, m) else p)
          (.ok i, setBuf s₁ h { buf with marks := newMarks })
        else
          (.ok i, setBuf s₁ h { buf with marks := buf.marks ++ [(ns, m)] })
      | none =>
        let i := s.nextMarkId
        (.ok i, setBuf { s₁ with nextMarkId := i + 1 } h
          { buf with marks := buf.marks ++ [(ns, ⟨i, row', endRow', deco⟩)] })

/-- `buf.clear_namespace(ns, 0..usize::MAX)`: remove every mark of the
namespace; fails on invalid buffer. -/
def clearNamespace (s : HostState) (h : Int) (ns : Nat) :
    Except String Unit × HostState :=
  match getBuf s h with
  | none => (.error "Invalid buffer", s)
  | some buf =>
    (.ok (), setBuf s h { buf with marks := buf.marks.filter (fun p => p.1 ≠ ns) })

/-- `nvim_buf_get_extmarks(buf, ns, 0, -1, details)`: every mark of the
namespace, in creation order; fails on invalid buffer. -/
def getExtmarks (s : HostState) (h : Int) (ns : Nat) : Except String (List Mark) :=
  match getBuf s h with
  | none => .error "Invalid buffer"
  | some buf => .ok ((buf.marks.filter (fun p => p.1 = ns)).map Prod.snd)

/-- `get_extmark_range` from the source: resolve a sticky range to its
current bounds; `none` when the buffer, the mark or its end row is gone. -/
def get_extmark_range (s : HostState) (h : Int) (ns ext : Nat) : Option (Nat × Nat) :=
  match getBuf s h with
  | none => none
  | some buf =>
    match (buf.marks.filter (fun p => p.1 = ns)).find? (fun p => p.2.id == ext) with
    | none => none
    | some p => p.2.endRow.map (fun e => (p.2.row, e))

/-- `set_option("modified", false)`: modelled as a validity-checked no-op
(nothing in the engine reads the flag back). -/
def setOptionModified (s : HostState) (h : Int) : Except String Unit × HostState :=
  match getBuf s h with
  | none => (.error "Invalid buffer", s)
  | some _ => (.ok (), s)

/-- `multibuf_create`: allocate a buffer and register an empty multibuffer
state under a fresh namespace.  (`define_signs` and the `BufWriteCmd`
autocommand registration have no modelled effect; saving dispatches to
`multibuf_write` at the claim level.) -/
def multibuf_create (s : HostState) : Except String Int × HostState :=
  let handle := s.nextBufHandle
  let ns := s.nextNsId
  let buf : BufferState := { name := "multibuf://" ++ toString handle, lines := [""], marks := [] }
  let s₁ := { s with
    buffers := assocSet handle buf s.buffers,
    nextBufHandle := handle + 1,
    nextNsId := ns + 1,
    multibuffers := assocSet handle ⟨handle, [], ns⟩ s.multibuffers }
  (.ok handle, s₁)

/-- Sign column text `format!("{:>3} ", n % 1000)`. -/
def signText (n : Nat) : String :=
  let m := n % 1000
  (if m < 10 then "  " else if m < 100 then " " else "") ++ toString m ++ " "

/-- Header text `format!(" ─────── Source: {} ─────── ", name)`. -/
def headerText (name : String) : String :=
  " ─────── Source: " ++ name ++ " ─────── "

/-- The `virt_lines` block of a region header: the title padded by a blank
virtual line above and below. -/
def headerVirtLines (name : String) : List (List (String × String)) :=
  [[("", "None")], [(headerText name, "Title")], [("", "None")]]

/-- One piece of `region_metas` accumulated by the reload loop: the region,
the output range it occupies, its current source start, and whether it
starts a new source group. -/
structure RegionMeta where
  reg : RegionState
  startRow : Nat
  endRow : Nat
  srcStart : Nat
  header : Bool
deriving DecidableEq, Repr

/-- The region loop of `multibuf_reload`: resolve each region's sticky
range, skip it on failure, otherwise append its current source lines and
record its output range, source start and source-group flag. -/
def reloadLoop (s : HostState) (ns : Nat) :
    List RegionState → List String → Int → List String × List RegionMeta
  | [], acc, _ => (acc, [])
  | r :: rest, acc, lastBuf =>
    match get_extmark_range s r.source_buf_handle ns r.source_extmark with
    | some (ss, se) =>
      match getLinesE s r.source_buf_handle ss se with
      | .ok lines =>
        let headerNeeded := decide (r.source_buf_handle ≠ lastBuf)
        let acc' := acc ++ lines
        let res := reloadLoop s ns rest acc' r.source_buf_handle
        (res.1, ⟨r, acc.length, acc'.length, ss, headerNeeded⟩ :: res.2)
      | .error _ => reloadLoop s ns rest acc lastBuf
    | none => reloadLoop s ns rest acc lastBuf

/-- The sign loop of `multibuf_reload` (`for i in start..end`): one margin
decoration per output line showing the 1-based source line number. -/
def applySigns (h : Int) (ns srcStart start : Nat) :
    List Nat → HostState → Except String Unit × HostState
  | [], s => (.ok (), s)
  | i :: rest, s =>
    let displayLnum := srcStart + (i - start) + 1
    match setExtmark s h ns i none none (.sign (signText displayLnum) "LineNr" 100) with
    | (.error e, s') => (.error e, s')
    | (.ok _, s') => applySigns h ns srcStart start rest s'

/-- The decoration loop of `multibuf_reload`: re-anchor each region's
identifier onto its output range, add a header block when the region
starts a new source group, then the margin signs. -/
def applyMetas (h : Int) (ns : Nat) :
    List RegionMeta → HostState → Except String Unit × HostState
  | [], s => (.ok (), s)
  | m :: rest, s =>
    match setExtmark s h ns m.startRow (some m.reg.source_extmark) (some m.endRow) .plain with
    | (.error e, s') => (.error e, s')
    | (.ok _, s₁) =>
      let afterHeader :=
        if m.header then
          setExtmark s₁ h ns m.startRow none none
            (.virtLines true (headerVirtLines (bufName s₁ m.reg.source_buf_handle)))
        else (.ok 0, s₁)
      match afterHeader with
      | (.error e, s') => (.error e, s')
      | (.ok _, s₂) =>
        match applySigns h ns m.srcStart m.startRow
            (List.range' m.startRow (m.endRow - m.startRow)) s₂ with
        | (.error e, s') => (.error e, s')
        | (.ok _, s₃) => applyMetas h ns rest s₃

/-- The body of `multibuf_reload` (inside the registry borrow): clear the
namespace, rebuild the whole content from the regions, then the
decorations, then mark the document unmodified. -/
def multibuf_reload_body (s : HostState) (mbufHandle : Int) :
    Except String Unit × HostState :=
  match assocGet mbufHandle s.multibuffers with
  | none => (.error "Multibuffer not found", s)
  | some mb =>
    let ns := mb.ns_id
    let mbuf := mb.handle
    match clearNamespace s mbuf ns with
    | (.error e, s') => (.error e, s')
    | (.ok _, s₁) =>
      let res := reloadLoop s₁ ns mb.regions [] (-1)
      match setLinesE s₁ mbuf 0 USIZE_MAX res.1 with
      | (.error e, s') => (.error e, s')
      | (.ok _, s₂) =>
        match applyMetas mbuf ns res.2 s₂ with
        | (.error e, s') => (.error e, s')
        | (.ok _, s₃) => setOptionModified s₃ mbuf

/-- `multibuf_reload`: guarded by the recursion guard (no-op when a
synchronization is already in flight) and by the registry borrow (a live
outer mutable borrow makes the re-borrow panic); the guard is released on
every exit path. -/
def multibuf_reload (s : HostState) (h : Int) : Except String Unit × HostState :=
  if s.isSyncing then (.ok (), s)
  else if s.mbBorrowed then (.error borrowPanic, s)
  else
    let r := multibuf_reload_body { s with isSyncing := true } h
    (r.1, { r.2 with isSyncing := false })

/-- `setup_source_sync`: register the multibuffer as a watcher of the
source (idempotent); the `TextChanged` autocommand dispatch is modelled by
`sync_source_to_mbufs` itself. -/
def setup_source_sync (s : HostState) (sourceHandle mbufHandle : Int) : HostState :=
  let watchers := (assocGet sourceHandle s.sourceToMbuf).getD []
  if mbufHandle ∈ watchers then s
  else { s with sourceToMbuf := assocSet sourceHandle (watchers ++ [mbufHandle]) s.sourceToMbuf }

/-- Reload every watcher in turn, ignoring individual failures. -/
def syncLoop : List Int → HostState → HostState
  | [], s => s
  | h :: rest, s => syncLoop rest (multibuf_reload s h).2

/-- `sync_source_to_mbufs`: the source-change notification handler; a
silent no-op while a synchronization already holds the guard. -/
def sync_source_to_mbufs (s : HostState) (sourceHandle : Int) :
    Except String Unit × HostState :=
  if s.isSyncing then (.ok (), s)
  else
    match assocGet sourceHandle s.sourceToMbuf with
    | none => (.ok (), s)
    | some mbufs => (.ok (), syncLoop mbufs s)

/-- Append a region to a multibuffer's registry entry (the in-place
`mb.regions.push` through the live registry borrow). -/
def pushRegion (s : HostState) (h : Int) (r : RegionState) : HostState :=
  let upd := fun (p : Int × MultibufState) =>
    if p.1 = h then (p.1, { p.2 with regions := p.2.regions ++ [r] }) else p
  { s with multibuffers := s.multibuffers.map upd }

/-- The range loop of `multibuf_add_buffer`: create a sticky range and
append a region for every range with `start_row <= end_row`; silently skip
the others; a sticky-range creation failure aborts the batch. -/
def addRegionsLoop (sourceBuf mbufHandle : Int) (ns : Nat) :
    List MultibufRegion → HostState → Except String Unit × HostState
  | [], s => (.ok (), s)
  | r :: rest, s =>
    if r.start_row ≤ r.end_row then
      match setExtmark s sourceBuf ns r.start_row none (some (r.end_row + 1)) .plain with
      | (.error e, s') => (.error e, s')
      | (.ok extId, s₁) =>
        addRegionsLoop sourceBuf mbufHandle ns rest
          (pushRegion s₁ mbufHandle ⟨sourceBuf, extId⟩)
    else addRegionsLoop sourceBuf mbufHandle ns rest s

/-- `multibuf_add_buffer`: validate the source, then — holding the mutable
registry borrow for the whole body — append a region per valid range,
register the watch relation and trigger a reload.  The nested reload
re-borrows the registry while the borrow is still live, which panics. -/
def multibuf_add_buffer (s : HostState) (args : AddBufferArgs) :
    Except String Unit × HostState :=
  if (getBuf s args.source_buf).isNone then
    (.error ("Invalid source buffer: " ++ toString args.source_buf), s)
  else
    let s₀ := { s with mbBorrowed := true }
    let r : Except String Unit × HostState :=
      match assocGet args.multibuf s₀.multibuffers with
      | none => (.error "Multibuffer not found", s₀)
      | some mb =>
        match addRegionsLoop args.source_buf args.multibuf mb.ns_id args.regions s₀ with
        | (.error e, s') => (.error e, s')
        | (.ok _, s₁) =>
          multibuf_reload (setup_source_sync s₁ args.source_buf args.multibuf) args.multibuf
    (r.1, { r.2 with mbBorrowed := false })

/-- One region of the write-back loop: find the region's decoration among
the virtual document's extmarks, resolve the region's current source
bounds, read the edited output lines and overwrite the source range with
them; any failure along the way skips the region. -/
def writeRegionStep (s : HostState) (mbuf : Int) (ns : Nat) (extmarks : List Mark)
    (r : RegionState) : HostState :=
  match extmarks.find? (fun m => m.id == r.source_extmark) with
  | none => s
  | some mark =>
    let row := mark.row
    let endRow := mark.endRow.getD (row + 1)
    match get_extmark_range s r.source_buf_handle ns r.source_extmark with
    | none => s
    | some (ss, se) =>
      match getLinesE s mbuf row endRow with
      | .error _ => s
      | .ok lines => (setLinesE s r.source_buf_handle ss se lines).2

/-- The write-back loop over the registry, in registry order. -/
def writeLoop (mbuf : Int) (ns : Nat) (extmarks : List Mark) :
    List RegionState → HostState → HostState
  | [], s => s
  | r :: rest, s => writeLoop mbuf ns extmarks rest (writeRegionStep s mbuf ns extmarks r)

/-- The body of `multibuf_write` (inside the registry borrow). -/
def multibuf_write_body (s : HostState) (mbufHandle : Int) :
    Except String Unit × HostState :=
  match assocGet mbufHandle s.multibuffers with
  | none => (.error "Multibuffer not found", s)
  | some mb =>
    match getExtmarks s mb.handle mb.ns_id with
    | .error e => (.error e, s)
    | .ok extmarks =>
      setOptionModified (writeLoop mb.handle mb.ns_id extmarks mb.regions s) mb.handle

/-- `multibuf_write`: guarded exactly like `multibuf_reload`. -/
def multibuf_write (s : HostState) (h : Int) : Except String Unit × HostState :=
  if s.isSyncing then (.ok (), s)
  else if s.mbBorrowed then (.error borrowPanic, s)
  else
    let r := multibuf_write_body { s with isSyncing := true } h
    (r.1, { r.2 with isSyncing := false })

/-- The scan of `multibuf_get_context`: the first decoration whose output
range contains the line and resolves through a registered region wins;
decorations without an end row span a single line. -/
def ctxScan (s : HostState) (mb : MultibufState) (line : Nat) :
    List Mark → Option ContextResult
  | [] => none
  | m :: rest =>
    let start := m.row
    let e := m.endRow.getD (start + 1)
    if start ≤ line ∧ line < e then
      match mb.regions.find? (fun r => r.source_extmark == m.id) with
      | some r =>
        match get_extmark_range s r.source_buf_handle mb.ns_id r.source_extmark with
        | some p => some ⟨r.source_buf_handle, p.1 + (line - start)⟩
        | none => ctxScan s mb line rest
      | none => ctxScan s mb line rest
    else ctxScan s mb line rest

/-- `multibuf_get_context`: a pure query mapping a virtual-document line to
its originating source document and line; `none` when no decoration covers
the line. -/
def multibuf_get_context (s : HostState) (h : Int) (line : Nat) :
    Except String (Option ContextResult) × HostState :=
  match assocGet h s.multibuffers with
  | none => (.error "Multibuffer not found", s)
  | some mb =>
    match getExtmarks s mb.handle mb.ns_id with
    | .error e => (.error e, s)
    | .ok marks => (.ok (ctxScan s mb line marks), s)

/-! ## Pure description of a reload's output, used by the theorems below -/

/-- Resolve one region the way the reload loop does: its current source
start and current source lines, or `none` when resolution fails. -/
def renderRegion (s : HostState) (ns : Nat) (r : RegionState) :
    Option (Nat × List String) :=
  match get_extmark_range s r.source_buf_handle ns r.source_extmark with
  | none => none
  | some (ss, se) =>
    match getLinesE s r.source_buf_handle ss se with
    | .error _ => none
    | .ok lines => some (ss, lines)

/-- The lines a region contributes to the rendered output. -/
def renderedLines (s : HostState) (ns : Nat) (r : RegionState) : List String :=
  ((renderRegion s ns r).map Prod.snd).getD []

/-- The whole rendered content: every region's contribution, in registry
order. -/
def renderAll (s : HostState) (ns : Nat) (regions : List RegionState) : List String :=
  (regions.map (renderedLines s ns)).flatten

/-- The `region_metas` a reload records, described non-incrementally. -/
def renderMetas (s : HostState) (ns : Nat) :
    List RegionState → Nat → Int → List RegionMeta
  | [], _, _ => []
  | r :: rest, pos, lastBuf =>
    match renderRegion s ns r with
    | some (ss, lines) =>
      ⟨r, pos, pos + lines.length, ss, decide (r.source_buf_handle ≠ lastBuf)⟩ ::
        renderMetas s ns rest (pos + lines.length) r.source_buf_handle
    | none => renderMetas s ns rest pos lastBuf

/-- The sign marks one region produces, with their allocated ids. -/
def signMarksFrom (ns srcStart start : Nat) :
    List Nat → Nat → List (Nat × Mark) × Nat
  | [], c => ([], c)
  | i :: rest, c =>
    let r := signMarksFrom ns srcStart start rest (c + 1)
    ((ns, ⟨c, i, none, .sign (signText (srcStart + (i - start) + 1)) "LineNr" 100⟩) :: r.1, r.2)

/-- The decoration a reload re-anchors for one region: the region's own
sticky-range identifier spanning its output range. -/
def regionMarkOf (m : RegionMeta) : Mark :=
  ⟨m.reg.source_extmark, m.startRow, some m.endRow, Deco.plain⟩

/-- The decorations a successful reload leaves in the namespace, in
creation order, together with the final id counter.  `names` is the
display-name view of the host at decoration time. -/
def renderedMarks (names : Int → String) (ns : Nat) :
    List RegionMeta → Nat → List (Nat × Mark) × Nat
  | [], c => ([], c)
  | m :: rest, c =>
    let regionMark : Nat × Mark := (ns, regionMarkOf m)
    let headerPart : List (Nat × Mark) × Nat :=
      if m.header then
        ([(ns, ⟨c, m.startRow, none, .virtLines true (headerVirtLines (names m.reg.source_buf_handle))⟩)], c + 1)
      else ([], c)
    let signsPart := signMarksFrom ns m.srcStart m.startRow
      (List.range' m.startRow (m.endRow - m.startRow)) headerPart.2
    let restPart := renderedMarks names ns rest signsPart.2
    (regionMark :: (headerPart.1 ++ (signsPart.1 ++ restPart.1)), restPart.2)

/-- The position/extent/payload view of a decoration, forgetting its
auto-allocated id: the "decoration layout" of the spec. -/
def markLayout (p : Nat × Mark) : Nat × Nat × Option Nat × Deco :=
  (p.1, p.2.row, p.2.endRow, p.2.deco)

/-- A well-formed configuration for a reload of the virtual document `h`:
no synchronization in flight, no live registry borrow, a healthy host,
`mb` registered under `h` with a valid buffer whose decorations all live
in its own namespace, regions referring to genuine source documents
(not the virtual document itself), and region identifiers allocated by the
host (hence below the id counter and pairwise distinct). -/
def ReloadReady (s : HostState) (h : Int) (mb : MultibufState) (buf : BufferState) : Prop :=
  s.isSyncing = false ∧ s.mbBorrowed = false ∧ s.setExtmarkFuel = none ∧
  assocGet h s.multibuffers = some mb ∧ mb.handle = h ∧ getBuf s h = some buf ∧
  buf.lines.length ≤ USIZE_MAX ∧
  (∀ p ∈ buf.marks, p.1 = mb.ns_id) ∧
  (∀ r ∈ mb.regions, r.source_buf_handle ≠ h) ∧
  (∀ r ∈ mb.regions, r.source_extmark < s.nextMarkId) ∧
  (mb.regions.map (fun r => r.source_extmark)).Nodup

/-- The state a successful reload produces: the virtual document holds the
rendered content and exactly the rendered decorations; the id counter has
advanced past the freshly allocated decoration ids. -/
def reloadResult (s : HostState) (h : Int) (mb : MultibufState) (buf : BufferState) :
    HostState :=
  setBuf { s with nextMarkId :=
      (renderedMarks (bufName s) mb.ns_id
        (renderMetas s mb.ns_id mb.regions 0 (-1)) s.nextMarkId).2 } h
    { buf with
      lines := renderAll s mb.ns_id mb.regions,
      marks := (renderedMarks (bufName s) mb.ns_id
        (renderMetas s mb.ns_id mb.regions 0 (-1)) s.nextMarkId).1 }

/-- The virtual document's buffer after a successful reload. -/
def reloadBuf (s : HostState) (_h : Int) (mb : MultibufState) (buf : BufferState) :
    BufferState :=
  { buf with
    lines := renderAll s mb.ns_id mb.regions,
    marks := (renderedMarks (bufName s) mb.ns_id
      (renderMetas s mb.ns_id mb.regions 0 (-1)) s.nextMarkId).1 }

/-! ## A concrete host configuration used as a running example -/

/-- Source document `A` (handle 1): four lines, one region sticky range
(id 1, rows 0..3) in namespace 7. -/
def exSrcA : BufferState :=
  ⟨"A", ["a0", "a1", "a2", "a3"], [(7, ⟨1, 0, some 3, Deco.plain⟩)]⟩

/-- Source document `B` (handle 2): five lines, region sticky ranges id 2
(rows 1..4) and id 3 (rows 0..1) in namespace 7. -/
def exSrcB : BufferState :=
  ⟨"B", ["b0", "b1", "b2", "b3", "b4"],
    [(7, ⟨2, 1, some 4, Deco.plain⟩), (7, ⟨3, 0, some 1, Deco.plain⟩)]⟩

/-- The virtual document's buffer (handle 10), not yet rendered. -/
def exMbufBuf : BufferState := ⟨"multibuf", [""], []⟩

/-- Three regions in registry order `[B, A, B]`. -/
def exRegions : List RegionState := [⟨2, 2⟩, ⟨1, 1⟩, ⟨2, 3⟩]

/-- The registered multibuffer: handle 10, namespace 7. -/
def exMb : MultibufState := ⟨10, exRegions, 7⟩

/-- A healthy host holding the two sources and the virtual document. -/
def exState : HostState :=
  ⟨[(1, exSrcA), (2, exSrcB), (10, exMbufBuf)], 11, 5, 8, none, [(10, exMb)],
    [(1, [10]), (2, [10])], false, false⟩

/-- The same host while a synchronization holds the recursion guard. -/
def exStateSync : HostState := { exState with isSyncing := true }

/-- The same host with fuel for exactly one more `set_extmark`. -/
def exStateFuel : HostState := { exState with setExtmarkFuel := some 1 }

/-- The same host after source document `A` (handle 1) was deleted. -/
def exStateDel : HostState := { exState with buffers := [(2, exSrcB), (10, exMbufBuf)] }

/-- The state a two-range `add_regions` batch reaches when the second
sticky-range creation fails: the first range's mark and region are already
in place, the fuel is exhausted. -/
def addFailState (S : HostState) (src mbh : Int) (ns : Nat) (a₁ b₁ : Nat)
    (srcbuf : BufferState) : HostState :=
  pushRegion
    (setBuf
      { S with
        setExtmarkFuel := some 0,
        nextMarkId := S.nextMarkId + 1 }
      src
      { srcbuf with
        marks := srcbuf.marks ++
          [(ns, ⟨S.nextMarkId, min a₁ srcbuf.lines.length,
            some (min (b₁ + 1) srcbuf.lines.length), Deco.plain⟩)] })
    mbh ⟨src, S.nextMarkId⟩

/-! ## Association-list and buffer-table lemmas -/

theorem assocGet_assocSet_self {β : Type} (k : Int) (v : β) (l : List (Int × β)) :
    assocGet k (assocSet k v l) = some v := by
  induction l with
  | nil => simp [assocGet, assocSet]
  | cons p rest ih =>
    by_cases hp : p.1 = k
    · simp [assocSet, hp, assocGet]
    · simp [assocSet, hp, assocGet, ih]

theorem assocGet_assocSet_ne {β : Type} {k k' : Int} (v : β) (l : List (Int × β))
    (h : k' ≠ k) : assocGet k' (assocSet k v l) = assocGet k' l := by
  have hkk : ¬ (k = k') := fun hh => h hh.symm
  induction l with
  | nil => simp only [assocSet, assocGet, if_neg hkk]
  | cons p rest ih =>
    by_cases hp : p.1 = k
    · have hpk : ¬ (p.1 = k') := by rw [hp]; exact hkk
      simp only [assocSet, if_pos hp, assocGet, if_neg hkk, if_neg hpk]
    · simp only [assocSet, if_neg hp, assocGet, ih]

theorem assocSet_eq_self {β : Type} {k : Int} {v : β} {l : List (Int × β)}
    (h : assocGet k l = some v) : assocSet k v l = l := by
  induction l with
  | nil => simp [assocGet] at h
  | cons p rest ih =>
    by_cases hp : p.1 = k
    · simp only [assocGet, if_pos hp] at h
      simp only [assocSet, if_pos hp]
      injection h with h2
      rw [← hp, ← h2]
    · simp only [assocGet, if_neg hp] at h
      simp only [assocSet, if_neg hp, ih h]

theorem assocSet_assocSet {β : Type} (k : Int) (v w : β) (l : List (Int × β)) :
    assocSet k v (assocSet k w l) = assocSet k v l := by
  induction l with
  | nil => simp [assocSet]
  | cons p rest ih =>
    by_cases hp : p.1 = k
    · simp [assocSet, hp]
    · simp [assocSet, hp, ih]

theorem getBuf_setBuf_self (s : HostState) (h : Int) (b : BufferState) :
    getBuf (setBuf s h b) h = some b := by
  simp [getBuf, setBuf, assocGet_assocSet_self]

theorem getBuf_setBuf_ne (s : HostState) (h : Int) (b : BufferState) {x : Int}
    (hx : x ≠ h) : getBuf (setBuf s h b) x = getBuf s x := by
  simp [getBuf, setBuf, assocGet_assocSet_ne _ _ hx]

theorem setBuf_eq_self {s : HostState} {h : Int} {b : BufferState}
    (hb : getBuf s h = some b) : setBuf s h b = s := by
  simp [setBuf, assocSet_eq_self hb]

theorem setBuf_setBuf (s : HostState) (h : Int) (b₁ b₂ : BufferState) :
    setBuf (setBuf s h b₁) h b₂ = setBuf s h b₂ := by
  simp [setBuf, assocSet_assocSet]

@[simp] theorem setBuf_multibuffers (s : HostState) (h : Int) (b : BufferState) :
    (setBuf s h b).multibuffers = s.multibuffers := rfl

@[simp] theorem setBuf_sourceToMbuf (s : HostState) (h : Int) (b : BufferState) :
    (setBuf s h b).sourceToMbuf = s.sourceToMbuf := rfl

@[simp] theorem setBuf_isSyncing (s : HostState) (h : Int) (b : BufferState) :
    (setBuf s h b).isSyncing = s.isSyncing := rfl

@[simp] theorem setBuf_mbBorrowed (s : HostState) (h : Int) (b : BufferState) :
    (setBuf s h b).mbBorrowed = s.mbBorrowed := rfl

@[simp] theorem setBuf_fuel (s : HostState) (h : Int) (b : BufferState) :
    (setBuf s h b).setExtmarkFuel = s.setExtmarkFuel := rfl

@[simp] theorem setBuf_nextMarkId (s : HostState) (h : Int) (b : BufferState) :
    (setBuf s h b).nextMarkId = s.nextMarkId := rfl

/-! ## The slice-replacement identity: writing a range's own content back is
a complete no-op on the host state. -/

theorem map_eq_self_of {α : Type} (l : List α) (f : α → α) (h : ∀ x ∈ l, f x = x) :
    l.map f = l := by
  induction l with
  | nil => rfl
  | cons a rest ih =>
    simp only [List.map_cons, h a (by simp)]
    rw [ih (fun x hx => h x (by simp [hx]))]

theorem slice_length {α : Type} (L : List α) (ss se : Nat) :
    ((L.take se).drop ss).length = min se L.length - ss := by
  simp [List.length_drop, List.length_take]

theorem shiftPos_slice_id (ss se len p : Nat) :
    shiftPos (min ss len) (min (max ss se) len) (min se len - ss) p = p := by
  unfold shiftPos
  split_ifs <;> omega

theorem shiftMark_slice_id (ss se len : Nat) (m : Mark) :
    shiftMark (min ss len) (min (max ss se) len) (min se len - ss) m = m := by
  cases m with
  | mk id row endRow deco =>
    cases endRow with
    | none => simp [shiftMark, shiftPos_slice_id]
    | some e => simp [shiftMark, shiftPos_slice_id]

theorem take_slice_drop {α : Type} (L : List α) (ss se : Nat) :
    L.take ss ++ (L.take se).drop ss ++ L.drop (max ss se) = L := by
  rcases Nat.le_total se ss with hle | hle
  · have h1 : (L.take se).drop ss = [] :=
      List.drop_eq_nil_of_le (by simp [List.length_take]; omega)
    rw [h1, Nat.max_eq_left hle]
    simp [List.take_append_drop]
  · have h2 : L.take ss ++ (L.take se).drop ss = L.take se := by
      have h3 : (L.take se).take ss = L.take ss := by
        rw [List.take_take, Nat.min_eq_left hle]
      rw [← h3, List.take_append_drop]
    rw [Nat.max_eq_right hle, List.append_assoc, ← List.append_assoc, h2,
      List.take_append_drop]

theorem setLinesE_slice_id {s : HostState} {h : Int} {buf : BufferState}
    (hb : getBuf s h = some buf) (ss se : Nat) :
    setLinesE s h ss se ((buf.lines.take se).drop ss) = (.ok (), s) := by
  unfold setLinesE
  rw [hb]
  simp only [take_slice_drop, slice_length]
  have hm : buf.marks.map (fun p =>
      (p.1, shiftMark (min ss buf.lines.length) (min (max ss se) buf.lines.length)
        (min se buf.lines.length - ss) p.2)) = buf.marks :=
    map_eq_self_of _ _ (fun p _ => by rw [shiftMark_slice_id])
  rw [hm]
  rw [show ({ buf with lines := buf.lines, marks := buf.marks } : BufferState) = buf from rfl]
  rw [setBuf_eq_self hb]

/-! ## Success equations for the host primitives -/

theorem fuel_eta {s : HostState} {f : Option Nat} (h : f = s.setExtmarkFuel) :
    ({ s with setExtmarkFuel := f }) = s := by rw [h]

theorem setExtmark_id_eq {s : HostState} {h : Int} {buf : BufferState}
    (hb : getBuf s h = some buf) (hfuel : s.setExtmarkFuel = none)
    (ns : Nat) (deco : Deco) {row i er : Nat}
    (hrow : row ≤ buf.lines.length) (her : er ≤ buf.lines.length)
    (hid : ∀ p ∈ buf.marks, ¬(p.1 = ns ∧ p.2.id = i)) :
    setExtmark s h ns row (some i) (some er) deco =
      (.ok i, setBuf s h { buf with marks := buf.marks ++ [(ns, ⟨i, row, some er, deco⟩)] }) := by
  unfold setExtmark
  rw [hb, hfuel]
  have hany : buf.marks.any (fun p => decide (p.1 = ns ∧ p.2.id = i)) = false := by
    simp only [List.any_eq_false, decide_eq_true_eq]
    exact hid
  simp only [hany, Option.map_none', Option.map_some', Bool.false_eq_true, if_false,
    Nat.min_eq_left hrow, Nat.min_eq_left her]
  rw [fuel_eta hfuel.symm]

theorem setExtmark_sign_eq {s : HostState} {h : Int} {buf : BufferState}
    (hb : getBuf s h = some buf) (hfuel : s.setExtmarkFuel = none)
    (ns : Nat) (deco : Deco) {row : Nat} (hrow : row ≤ buf.lines.length) :
    setExtmark s h ns row none none deco =
      (.ok s.nextMarkId, setBuf { s with nextMarkId := s.nextMarkId + 1 } h
        { buf with marks := buf.marks ++ [(ns, ⟨s.nextMarkId, row, none, deco⟩)] }) := by
  unfold setExtmark
  rw [hb, hfuel]
  simp only [Option.map_none', Nat.min_eq_left hrow]

theorem setExtmark_fail_eq {s : HostState} {h : Int} {buf : BufferState}
    (hb : getBuf s h = some buf) (hfuel : s.setExtmarkFuel = some 0)
    (ns row : Nat) (idOpt endRowOpt : Option Nat) (deco : Deco) :
    setExtmark s h ns row idOpt endRowOpt deco = (.error "set_extmark failed", s) := by
  unfold setExtmark
  rw [hb, hfuel]

theorem setExtmark_alloc_fuel_eq {s : HostState} {h : Int} {buf : BufferState}
    (hb : getBuf s h = some buf) {n : Nat} (hfuel : s.setExtmarkFuel = some (n + 1))
    (ns row : Nat) (endRowOpt : Option Nat) (deco : Deco) :
    setExtmark s h ns row none endRowOpt deco =
      (.ok s.nextMarkId,
        setBuf { s with setExtmarkFuel := some n, nextMarkId := s.nextMarkId + 1 } h
          { buf with marks := buf.marks ++
            [(ns, ⟨s.nextMarkId, min row buf.lines.length,
              endRowOpt.map (fun e => min e buf.lines.length), deco⟩)] }) := by
  unfold setExtmark
  rw [hb, hfuel]
  rfl

theorem clearNamespace_eq {s : HostState} {h : Int} {buf : BufferState}
    (hb : getBuf s h = some buf) (ns : Nat) :
    clearNamespace s h ns =
      (.ok (), setBuf s h { buf with marks := buf.marks.filter (fun p => p.1 ≠ ns) }) := by
  unfold clearNamespace
  rw [hb]

theorem getLinesE_eq {s : HostState} {h : Int} {buf : BufferState}
    (hb : getBuf s h = some buf) (a b : Nat) :
    getLinesE s h a b = .ok ((buf.lines.take b).drop a) := by
  unfold getLinesE
  rw [hb]

theorem getExtmarks_eq {s : HostState} {h : Int} {buf : BufferState}
    (hb : getBuf s h = some buf) (ns : Nat) :
    getExtmarks s h ns = .ok ((buf.marks.filter (fun p => p.1 = ns)).map Prod.snd) := by
  unfold getExtmarks
  rw [hb]

theorem setOptionModified_eq {s : HostState} {h : Int} {buf : BufferState}
    (hb : getBuf s h = some buf) : setOptionModified s h = (.ok (), s) := by
  unfold setOptionModified
  rw [hb]

/-! ## Congruence lemmas: the read-only primitives only look at `getBuf` -/

theorem getLinesE_congr {s s' : HostState} {x : Int}
    (h : getBuf s' x = getBuf s x) (a b : Nat) : getLinesE s' x a b = getLinesE s x a b := by
  unfold getLinesE
  rw [h]

theorem get_extmark_range_congr {s s' : HostState} {x : Int}
    (h : getBuf s' x = getBuf s x) (ns e : Nat) :
    get_extmark_range s' x ns e = get_extmark_range s x ns e := by
  unfold get_extmark_range
  rw [h]

theorem bufName_congr {s s' : HostState} {x : Int}
    (h : getBuf s' x = getBuf s x) : bufName s' x = bufName s x := by
  unfold bufName
  rw [h]

theorem renderRegion_congr {s s' : HostState} {ns : Nat} {r : RegionState}
    (h : getBuf s' r.source_buf_handle = getBuf s r.source_buf_handle) :
    renderRegion s' ns r = renderRegion s ns r := by
  unfold renderRegion
  rw [get_extmark_range_congr h]
  cases get_extmark_range s r.source_buf_handle ns r.source_extmark with
  | none => rfl
  | some p =>
    obtain ⟨ss, se⟩ := p
    simp only [getLinesE_congr h]

theorem renderedLines_congr {s s' : HostState} {ns : Nat} {r : RegionState}
    (h : getBuf s' r.source_buf_handle = getBuf s r.source_buf_handle) :
    renderedLines s' ns r = renderedLines s ns r := by
  unfold renderedLines
  rw [renderRegion_congr h]

theorem renderAll_congr {s s' : HostState} {ns : Nat} {regions : List RegionState}
    (h : ∀ r ∈ regions, getBuf s' r.source_buf_handle = getBuf s r.source_buf_handle) :
    renderAll s' ns regions = renderAll s ns regions := by
  unfold renderAll
  rw [List.map_congr_left (fun r hr => renderedLines_congr (h r hr))]

theorem renderMetas_congr {s s' : HostState} {ns : Nat} :
    ∀ (regions : List RegionState), (∀ r ∈ regions,
      getBuf s' r.source_buf_handle = getBuf s r.source_buf_handle) →
    ∀ (pos : Nat) (lb : Int),
      renderMetas s' ns regions pos lb = renderMetas s ns regions pos lb := by
  intro regions
  induction regions with
  | nil => intro _ pos lb; rfl
  | cons r rest ih =>
    intro hreg pos lb
    have hr := hreg r (by simp)
    have hrest : ∀ x ∈ rest, getBuf s' x.source_buf_handle = getBuf s x.source_buf_handle :=
      fun x hx => hreg x (by simp [hx])
    simp only [renderMetas, renderRegion_congr hr]
    cases renderRegion s ns r with
    | none => exact ih hrest pos lb
    | some p => simp only [ih hrest]

/-! ## The reload loop computes `renderAll` and `renderMetas` -/

theorem renderAll_nil (s : HostState) (ns : Nat) : renderAll s ns [] = [] := rfl

theorem renderAll_cons (s : HostState) (ns : Nat) (r : RegionState) (rest : List RegionState) :
    renderAll s ns (r :: rest) = renderedLines s ns r ++ renderAll s ns rest := by
  simp [renderAll]

theorem reloadLoop_eq (s : HostState) (ns : Nat) :
    ∀ (regions : List RegionState) (acc : List String) (lb : Int),
      reloadLoop s ns regions acc lb =
        (acc ++ renderAll s ns regions, renderMetas s ns regions acc.length lb) := by
  intro regions
  induction regions with
  | nil => intro acc lb; simp [reloadLoop, renderAll, renderMetas]
  | cons r rest ih =>
    intro acc lb
    cases hgr : get_extmark_range s r.source_buf_handle ns r.source_extmark with
    | none =>
      have hrr : renderRegion s ns r = none := by unfold renderRegion; rw [hgr]
      simp only [reloadLoop, hgr, renderMetas, hrr, renderAll_cons, renderedLines, hrr,
        Option.map_none', Option.getD_none, List.nil_append]
      exact ih acc lb
    | some p =>
      obtain ⟨ss, se⟩ := p
      cases hgl : getLinesE s r.source_buf_handle ss se with
      | error e =>
        have hrr : renderRegion s ns r = none := by
          simp only [renderRegion, hgr, hgl]
        simp only [reloadLoop, hgr, hgl, renderMetas, hrr, renderAll_cons, renderedLines,
          Option.map_none', Option.getD_none, List.nil_append]
        exact ih acc lb
      | ok lines =>
        have hrr : renderRegion s ns r = some (ss, lines) := by
          simp only [renderRegion, hgr, hgl]
        simp only [reloadLoop, hgr, hgl, renderMetas, hrr, renderAll_cons, renderedLines,
          Option.map_some', Option.getD_some, ih, List.length_append, List.append_assoc]

/-! ## Facts about the recorded region metadata -/

theorem renderMetas_reg_mem (s : HostState) (ns : Nat) :
    ∀ (regions : List RegionState) (pos : Nat) (lb : Int),
      ∀ m ∈ renderMetas s ns regions pos lb, m.reg ∈ regions := by
  intro regions
  induction regions with
  | nil => intro pos lb m hm; simp [renderMetas] at hm
  | cons r rest ih =>
    intro pos lb m hm
    cases hrr : renderRegion s ns r with
    | none =>
      simp only [renderMetas, hrr] at hm
      exact List.mem_cons_of_mem _ (ih _ _ m hm)
    | some q =>
      obtain ⟨ss, lines⟩ := q
      simp only [renderMetas, hrr] at hm
      rcases List.mem_cons.mp hm with rfl | hm
      · exact List.mem_cons_self _ _
      · exact List.mem_cons_of_mem _ (ih _ _ m hm)

theorem renderMetas_mem_spec (s : HostState) (ns : Nat) :
    ∀ (regions : List RegionState) (pos : Nat) (lb : Int) (pre : List String),
      pre.length = pos →
      ∀ m ∈ renderMetas s ns regions pos lb,
        ∃ lines, renderRegion s ns m.reg = some (m.srcStart, lines) ∧
          m.endRow = m.startRow + lines.length ∧
          ((pre ++ renderAll s ns regions).take m.endRow).drop m.startRow = lines := by
  intro regions
  induction regions with
  | nil => intro pos lb pre hpre m hm; simp [renderMetas] at hm
  | cons r rest ih =>
    intro pos lb pre hpre m hm
    cases hrr : renderRegion s ns r with
    | none =>
      have hrl : renderedLines s ns r = [] := by simp [renderedLines, hrr]
      rw [renderAll_cons, hrl, List.nil_append]
      simp only [renderMetas, hrr] at hm
      exact ih _ _ pre hpre m hm
    | some q =>
      obtain ⟨ss, lines₀⟩ := q
      have hrl : renderedLines s ns r = lines₀ := by simp [renderedLines, hrr]
      rw [renderAll_cons, hrl]
      simp only [renderMetas, hrr] at hm
      rcases List.mem_cons.mp hm with rfl | hm
      · refine ⟨lines₀, hrr, rfl, ?_⟩
        have h1 : pre ++ (lines₀ ++ renderAll s ns rest) =
            (pre ++ lines₀) ++ renderAll s ns rest := by rw [List.append_assoc]
        rw [h1, List.take_left' (by simp [hpre]), List.drop_left' hpre]
      · have hres := ih (pos + lines₀.length) r.source_buf_handle (pre ++ lines₀)
          (by simp [hpre]) m hm
        rwa [List.append_assoc] at hres

theorem renderMetas_bounds (s : HostState) (ns : Nat) :
    ∀ (regions : List RegionState) (pos : Nat) (lb : Int),
      ∀ m ∈ renderMetas s ns regions pos lb,
        pos ≤ m.startRow ∧ m.startRow ≤ m.endRow ∧
          m.endRow ≤ pos + (renderAll s ns regions).length := by
  intro regions
  induction regions with
  | nil => intro pos lb m hm; simp [renderMetas] at hm
  | cons r rest ih =>
    intro pos lb m hm
    cases hrr : renderRegion s ns r with
    | none =>
      have hrl : renderedLines s ns r = [] := by simp [renderedLines, hrr]
      simp only [renderMetas, hrr] at hm
      have := ih pos lb m hm
      simp only [renderAll_cons, hrl, List.nil_append]
      exact this
    | some q =>
      obtain ⟨ss, lines₀⟩ := q
      have hrl : renderedLines s ns r = lines₀ := by simp [renderedLines, hrr]
      simp only [renderMetas, hrr] at hm
      simp only [renderAll_cons, hrl, List.length_append]
      rcases List.mem_cons.mp hm with rfl | hm
      · simp only
        omega
      · have := ih (pos + lines₀.length) r.source_buf_handle m hm
        omega

theorem renderMetas_ids_sublist (s : HostState) (ns : Nat) :
    ∀ (regions : List RegionState) (pos : Nat) (lb : Int),
      List.Sublist ((renderMetas s ns regions pos lb).map (fun m => m.reg.source_extmark))
        (regions.map (fun r => r.source_extmark)) := by
  intro regions
  induction regions with
  | nil => intro pos lb; simp [renderMetas]
  | cons r rest ih =>
    intro pos lb
    cases hrr : renderRegion s ns r with
    | none =>
      simp only [renderMetas, hrr, List.map_cons]
      exact (ih _ _).cons _
    | some q =>
      obtain ⟨ss, lines₀⟩ := q
      simp only [renderMetas, hrr, List.map_cons]
      exact (ih _ _).cons₂ _

theorem find?_key_of_nodup {α : Type} (f : α → Nat) :
    ∀ (l : List α) (a : α), (l.map f).Nodup → a ∈ l →
      l.find? (fun x => f x == f a) = some a := by
  intro l
  induction l with
  | nil => intro a _ ha; simp at ha
  | cons x rest ih =>
    intro a hnd ha
    have hnd2 : (f x) ∉ rest.map f ∧ (rest.map f).Nodup := by
      simpa [List.nodup_cons] using hnd
    rcases List.mem_cons.mp ha with rfl | ha
    · exact List.find?_cons_of_pos _ (by simp)
    · have hx : f x ≠ f a := fun he => hnd2.1 (he ▸ List.mem_map_of_mem f ha)
      rw [List.find?_cons_of_neg _ (by simp [hx]), ih a hnd2.2 ha]

theorem renderMetas_find_of_some (s : HostState) (ns : Nat) :
    ∀ (regions : List RegionState) (pos : Nat) (lb : Int) (r : RegionState)
      (ss : Nat) (lines : List String),
      (regions.map (fun x => x.source_extmark)).Nodup → r ∈ regions →
      renderRegion s ns r = some (ss, lines) →
      ∃ m, (renderMetas s ns regions pos lb).find?
          (fun m => m.reg.source_extmark == r.source_extmark) = some m ∧ m.reg = r := by
  intro regions
  induction regions with
  | nil => intro pos lb r ss lines _ hr; simp at hr
  | cons x rest ih =>
    intro pos lb r ss lines hnd hr hsome
    have hnd2 : (x.source_extmark) ∉ rest.map (fun y => y.source_extmark) ∧
        (rest.map (fun y => y.source_extmark)).Nodup := by
      simpa [List.nodup_cons] using hnd
    cases hrr : renderRegion s ns x with
    | some q =>
      obtain ⟨ss₀, lines₀⟩ := q
      simp only [renderMetas, hrr]
      rcases List.mem_cons.mp hr with rfl | hr
      · exact ⟨_, List.find?_cons_of_pos _ (by simp), rfl⟩
      · have hx : x.source_extmark ≠ r.source_extmark := fun he =>
          hnd2.1 (he ▸ List.mem_map_of_mem _ hr)
        rw [List.find?_cons_of_neg _ (by simp [hx])]
        exact ih _ _ r ss lines hnd2.2 hr hsome
    | none =>
      simp only [renderMetas, hrr]
      rcases List.mem_cons.mp hr with rfl | hr
      · rw [hrr] at hsome; exact absurd hsome (by simp)
      · exact ih _ _ r ss lines hnd2.2 hr hsome

theorem renderMetas_find_of_none (s : HostState) (ns : Nat) :
    ∀ (regions : List RegionState) (pos : Nat) (lb : Int) (r : RegionState),
      (regions.map (fun x => x.source_extmark)).Nodup → r ∈ regions →
      renderRegion s ns r = none →
      (renderMetas s ns regions pos lb).find?
        (fun m => m.reg.source_extmark == r.source_extmark) = none := by
  intro regions
  induction regions with
  | nil => intro pos lb r _ hr; simp at hr
  | cons x rest ih =>
    intro pos lb r hnd hr hnone
    have hnd2 : (x.source_extmark) ∉ rest.map (fun y => y.source_extmark) ∧
        (rest.map (fun y => y.source_extmark)).Nodup := by
      simpa [List.nodup_cons] using hnd
    cases hrr : renderRegion s ns x with
    | some q =>
      obtain ⟨ss₀, lines₀⟩ := q
      simp only [renderMetas, hrr]
      rcases List.mem_cons.mp hr with rfl | hr
      · rw [hrr] at hnone; exact absurd hnone (by simp)
      · have hx : x.source_extmark ≠ r.source_extmark := fun he =>
          hnd2.1 (he ▸ List.mem_map_of_mem _ hr)
        rw [List.find?_cons_of_neg _ (by simp [hx])]
        exact ih _ _ r hnd2.2 hr hnone
    | none =>
      simp only [renderMetas, hrr]
      rcases List.mem_cons.mp hr with rfl | hr
      · rw [List.find?_eq_none]
        intro m hm
        have hmem := renderMetas_reg_mem s ns rest _ _ m hm
        have : m.reg.source_extmark ∈ rest.map (fun y => y.source_extmark) :=
          List.mem_map_of_mem _ hmem
        simp only [beq_iff_eq]
        intro he
        exact hnd2.1 (he ▸ this)
      · exact ih _ _ r hnd2.2 hr hnone

/-! ## Facts about the rendered decoration list -/

theorem signMarksFrom_snd (ns a b : Nat) :
    ∀ (rows : List Nat) (c : Nat), (signMarksFrom ns a b rows c).2 = c + rows.length := by
  intro rows
  induction rows with
  | nil => intro c; simp [signMarksFrom]
  | cons i rest ih =>
    intro c
    simp only [signMarksFrom, ih, List.length_cons]
    omega

theorem signMarksFrom_mem (ns a b : Nat) :
    ∀ (rows : List Nat) (c : Nat), ∀ p ∈ (signMarksFrom ns a b rows c).1,
      p.1 = ns ∧ c ≤ p.2.id := by
  intro rows
  induction rows with
  | nil => intro c p hp; simp [signMarksFrom] at hp
  | cons i rest ih =>
    intro c p hp
    simp only [signMarksFrom] at hp
    rcases List.mem_cons.mp hp with rfl | hp
    · exact ⟨rfl, Nat.le_refl _⟩
    · have := ih (c + 1) p hp
      exact ⟨this.1, by omega⟩

theorem find?_append_none {α : Type} {p : α → Bool} {l₁ : List α} (l₂ : List α)
    (h : ∀ a ∈ l₁, ¬ p a = true) : (l₁ ++ l₂).find? p = l₂.find? p := by
  rw [List.find?_append, List.find?_eq_none.mpr h, Option.none_or]

theorem signMarks_find_none (ns a b : Nat) (rows : List Nat) (c e : Nat) (he : e < c) :
    ∀ mk ∈ (signMarksFrom ns a b rows c).1.map Prod.snd, ¬ (mk.id == e) = true := by
  intro mk hmk
  obtain ⟨p, hp, rfl⟩ := List.mem_map.mp hmk
  have := (signMarksFrom_mem ns a b rows c p hp).2
  simp only [beq_iff_eq]
  omega

theorem renderedMarks_snd_ge (names : Int → String) (ns : Nat) :
    ∀ (metas : List RegionMeta) (c : Nat), c ≤ (renderedMarks names ns metas c).2 := by
  intro metas
  induction metas with
  | nil => intro c; simp [renderedMarks]
  | cons m rest ih =>
    intro c
    cases hh : m.header
    · simp only [renderedMarks, hh, Bool.false_eq_true, if_false]
      refine Nat.le_trans ?_ (ih _)
      rw [signMarksFrom_snd]
      omega
    · simp only [renderedMarks, hh, if_true]
      refine Nat.le_trans ?_ (ih _)
      rw [signMarksFrom_snd]
      omega

theorem renderedMarks_ns (names : Int → String) (ns : Nat) :
    ∀ (metas : List RegionMeta) (c : Nat), ∀ p ∈ (renderedMarks names ns metas c).1,
      p.1 = ns := by
  intro metas
  induction metas with
  | nil => intro c p hp; simp [renderedMarks] at hp
  | cons m rest ih =>
    intro c p hp
    cases hh : m.header
    · simp only [renderedMarks, hh, Bool.false_eq_true, if_false, List.nil_append] at hp
      rcases List.mem_cons.mp hp with rfl | hp
      · rfl
      · rcases List.mem_append.mp hp with hp | hp
        · exact (signMarksFrom_mem _ _ _ _ _ p hp).1
        · exact ih _ p hp
    · simp only [renderedMarks, hh, if_true, List.singleton_append] at hp
      rcases List.mem_cons.mp hp with rfl | hp
      · rfl
      · rcases List.mem_cons.mp hp with rfl | hp
        · rfl
        · rcases List.mem_append.mp hp with hp | hp
          · exact (signMarksFrom_mem _ _ _ _ _ p hp).1
          · exact ih _ p hp

theorem renderedMarks_find (names : Int → String) (ns : Nat) :
    ∀ (metas : List RegionMeta) (c : Nat) (e : Nat),
      (metas.map (fun m => m.reg.source_extmark)).Nodup →
      (∀ m ∈ metas, m.reg.source_extmark < c) → e < c →
      ((renderedMarks names ns metas c).1.map Prod.snd).find? (fun mk => mk.id == e) =
        (metas.find? (fun m => m.reg.source_extmark == e)).map regionMarkOf := by
  intro metas
  induction metas with
  | nil => intro c e _ _ _; simp [renderedMarks]
  | cons m rest ih =>
    intro c e hnd hlt he
    have hnd2 : (rest.map (fun y => y.reg.source_extmark)).Nodup :=
      (by simpa [List.nodup_cons] using hnd : _ ∧ _).2
    have hltR : ∀ x ∈ rest, x.reg.source_extmark < c :=
      fun x hx => hlt x (List.mem_cons_of_mem _ hx)
    by_cases heq : m.reg.source_extmark = e
    · cases hh : m.header
      · simp only [renderedMarks, hh, Bool.false_eq_true, if_false, List.nil_append,
          List.map_cons]
        rw [List.find?_cons_of_pos _ (by simp [regionMarkOf, heq]),
          List.find?_cons_of_pos _ (by simp [heq])]
        rfl
      · simp only [renderedMarks, hh, if_true, List.singleton_append, List.map_cons]
        rw [List.find?_cons_of_pos _ (by simp [regionMarkOf, heq]),
          List.find?_cons_of_pos _ (by simp [heq])]
        rfl
    · cases hh : m.header
      · simp only [renderedMarks, hh, Bool.false_eq_true, if_false, List.nil_append,
          List.map_cons, List.map_append]
        rw [List.find?_cons_of_neg _ (by simp [regionMarkOf, heq]),
          List.find?_cons_of_neg _ (by simp [heq]),
          find?_append_none _ (signMarks_find_none _ _ _ _ c e he)]
        refine ih _ e hnd2 (fun x hx => ?_) ?_
        · have := hltR x hx
          rw [signMarksFrom_snd]
          omega
        · rw [signMarksFrom_snd]
          omega
      · have hce : (c == e) = false := by
          rw [beq_eq_false_iff_ne]
          omega
        simp only [renderedMarks, hh, if_true, List.singleton_append, List.map_cons,
          List.map_append]
        conv_rhs => rw [List.find?_cons_of_neg _ (by simp [heq])]
        rw [List.find?_cons_of_neg _ (by simp [regionMarkOf, heq])]
        rw [List.find?_cons_of_neg _ (by simp [hce])]
        rw [find?_append_none _ (signMarks_find_none _ _ _ _ (c + 1) e (by omega))]
        refine ih _ e hnd2 (fun x hx => ?_) ?_
        · have := hltR x hx
          rw [signMarksFrom_snd]
          omega
        · rw [signMarksFrom_snd]
          omega

/-! ## What the decoration loops do to the host state -/

theorem bufName_update {s s' : HostState} {h : Int} {bufOld bufNew : BufferState}
    (hb : getBuf s h = some bufOld) (hs' : s'.buffers = assocSet h bufNew s.buffers)
    (hname : bufNew.name = bufOld.name) : bufName s' = bufName s := by
  funext x
  unfold bufName getBuf
  rw [hs']
  by_cases hx : x = h
  · subst hx
    rw [assocGet_assocSet_self]
    rw [show assocGet x s.buffers = some bufOld from hb]
    exact hname
  · rw [assocGet_assocSet_ne _ _ hx]

theorem setBuf_update_nextMarkId (s : HostState) (h : Int) (b : BufferState) (n : Nat) :
    ({ setBuf s h b with nextMarkId := n }) = setBuf { s with nextMarkId := n } h b := rfl

theorem bufName_setBuf_eq (s₁ s₂ : HostState) (h : Int) (b₁ b₂ : BufferState)
    (hbuf : s₁.buffers = s₂.buffers) (hname : b₁.name = b₂.name) :
    bufName (setBuf s₁ h b₁) = bufName (setBuf s₂ h b₂) := by
  funext x
  unfold bufName getBuf setBuf
  simp only
  rw [hbuf]
  by_cases hx : x = h
  · subst hx
    rw [assocGet_assocSet_self, assocGet_assocSet_self]
    exact hname
  · rw [assocGet_assocSet_ne _ _ hx, assocGet_assocSet_ne _ _ hx]

theorem applySigns_spec (h : Int) (ns srcStart start : Nat) :
    ∀ (rows : List Nat) (s : HostState) (buf : BufferState),
      s.setExtmarkFuel = none →
      (∀ i ∈ rows, i ≤ buf.lines.length) →
      applySigns h ns srcStart start rows (setBuf s h buf) =
        (.ok (), setBuf
          { s with nextMarkId := (signMarksFrom ns srcStart start rows s.nextMarkId).2 } h
          { buf with marks :=
            buf.marks ++ (signMarksFrom ns srcStart start rows s.nextMarkId).1 }) := by
  intro rows
  induction rows with
  | nil =>
    intro s buf _ _
    simp only [applySigns, signMarksFrom, List.append_nil]
  | cons i rest ih =>
    intro s buf hfuel hbound
    have hi : i ≤ buf.lines.length := hbound i (List.mem_cons_self _ _)
    have hstep := setExtmark_sign_eq (getBuf_setBuf_self s h buf) (by exact hfuel)
      ns (.sign (signText (srcStart + (i - start) + 1)) "LineNr" 100) hi
    simp only [applySigns, hstep, setBuf_nextMarkId, setBuf_update_nextMarkId, setBuf_setBuf]
    rw [ih _ _ ?fl ?bnd]
    case fl => exact hfuel
    case bnd => exact fun j hj => hbound j (List.mem_cons_of_mem _ hj)
    simp only [signMarksFrom, List.append_assoc, List.singleton_append, List.cons_append,
      List.nil_append]

theorem applyMetas_spec (h : Int) (ns : Nat) :
    ∀ (metas : List RegionMeta) (s : HostState) (buf : BufferState) (c₀ : Nat),
      s.setExtmarkFuel = none →
      (∀ m ∈ metas, m.startRow ≤ m.endRow ∧ m.endRow ≤ buf.lines.length) →
      (∀ m ∈ metas, m.reg.source_extmark < c₀) → c₀ ≤ s.nextMarkId →
      (metas.map (fun m => m.reg.source_extmark)).Nodup →
      (∀ p ∈ buf.marks, p.1 = ns → ∀ m ∈ metas, p.2.id ≠ m.reg.source_extmark) →
      applyMetas h ns metas (setBuf s h buf) =
        (.ok (), setBuf
          { s with nextMarkId :=
            (renderedMarks (bufName (setBuf s h buf)) ns metas s.nextMarkId).2 } h
          { buf with marks := buf.marks ++
            (renderedMarks (bufName (setBuf s h buf)) ns metas s.nextMarkId).1 }) := by
  intro metas
  induction metas with
  | nil =>
    intro s buf c₀ _ _ _ _ _ _
    simp only [applyMetas, renderedMarks, List.append_nil]
  | cons m rest ih =>
    intro s buf c₀ hfuel hbounds hlt hc₀ hnd hid
    obtain ⟨hse, hel⟩ := hbounds m (List.mem_cons_self _ _)
    have hsl : m.startRow ≤ buf.lines.length := Nat.le_trans hse hel
    have hnd2 : (m.reg.source_extmark) ∉ rest.map (fun y => y.reg.source_extmark) ∧
        (rest.map (fun y => y.reg.source_extmark)).Nodup := by
      simpa [List.nodup_cons] using hnd
    have hid1 : ∀ p ∈ buf.marks, ¬(p.1 = ns ∧ p.2.id = m.reg.source_extmark) := by
      intro p hp hcon
      exact hid p hp hcon.1 m (List.mem_cons_self _ _) hcon.2
    have hstep1 := setExtmark_id_eq (getBuf_setBuf_self s h buf) (by exact hfuel)
      ns .plain hsl hel hid1
    have hrows : ∀ j ∈ List.range' m.startRow (m.endRow - m.startRow),
        j ≤ buf.lines.length := by
      intro j hj
      have := List.mem_range'_1.mp hj
      omega
    simp only [applyMetas, hstep1, setBuf_setBuf]
    cases hh : m.header
    · simp only [hh, Bool.false_eq_true, if_false]
      rw [applySigns_spec h ns m.srcStart m.startRow _ _ _ ?fl1 ?rws1]
      case fl1 => exact hfuel
      case rws1 => exact hrows
      simp only []
      rw [ih _ _ c₀ ?fl2 ?bnd2 ?lt2 ?cc2 ?nd2 ?hid2]
      case fl2 => exact hfuel
      case bnd2 => exact fun x hx => hbounds x (List.mem_cons_of_mem _ hx)
      case lt2 => exact fun x hx => hlt x (List.mem_cons_of_mem _ hx)
      case cc2 =>
        simp only [signMarksFrom_snd, setBuf_nextMarkId]
        omega
      case nd2 => exact hnd2.2
      case hid2 =>
        intro p hp hpns x hx
        simp only [List.mem_append] at hp
        rcases hp with hp | hp
        · rcases hp with hp | hp
          · exact hid p hp hpns x (List.mem_cons_of_mem _ hx)
          · rcases List.mem_singleton.mp hp with rfl
            simp only
            intro he
            exact hnd2.1 (he ▸ List.mem_map_of_mem _ hx)
        · have := (signMarksFrom_mem _ _ _ _ _ p hp).2
          have hxl := hlt x (List.mem_cons_of_mem _ hx)
          omega
      rw [bufName_setBuf_eq _ s _ _ buf ?hbf1 ?hnm1]
      case hbf1 => rfl
      case hnm1 => rfl
      simp only [renderedMarks, hh, Bool.false_eq_true, if_false, regionMarkOf,
        List.append_assoc, List.singleton_append, List.nil_append, List.cons_append]
    · simp only [hh, if_true]
      rw [show bufName (setBuf s h { buf with marks := buf.marks ++ [(ns,
        ⟨m.reg.source_extmark, m.startRow, some m.endRow, Deco.plain⟩)] })
          m.reg.source_buf_handle = bufName (setBuf s h buf) m.reg.source_buf_handle
        from congrFun (bufName_setBuf_eq s s h
          { buf with marks := buf.marks ++ [(ns,
            ⟨m.reg.source_extmark, m.startRow, some m.endRow, Deco.plain⟩)] }
          buf rfl rfl) m.reg.source_buf_handle]
      rw [setExtmark_sign_eq (getBuf_setBuf_self _ _ _) ?fl3 ns
        (.virtLines true (headerVirtLines (bufName (setBuf s h buf) m.reg.source_buf_handle)))
        ?row3]
      case fl3 => exact hfuel
      case row3 => exact hsl
      simp only [setBuf_nextMarkId, setBuf_update_nextMarkId, setBuf_setBuf]
      rw [applySigns_spec h ns m.srcStart m.startRow _ _ _ ?fl4 ?rws4]
      case fl4 => exact hfuel
      case rws4 => exact hrows
      simp only []
      rw [ih _ _ c₀ ?fl5 ?bnd5 ?lt5 ?cc5 ?nd5 ?hid3]
      case fl5 => exact hfuel
      case bnd5 => exact fun x hx => hbounds x (List.mem_cons_of_mem _ hx)
      case lt5 => exact fun x hx => hlt x (List.mem_cons_of_mem _ hx)
      case cc5 =>
        simp only [signMarksFrom_snd, setBuf_nextMarkId]
        omega
      case nd5 => exact hnd2.2
      case hid3 =>
        intro p hp hpns x hx
        simp only [List.mem_append] at hp
        rcases hp with hp | hp
        · rcases hp with hp | hp
          · rcases hp with hp | hp
            · exact hid p hp hpns x (List.mem_cons_of_mem _ hx)
            · rcases List.mem_singleton.mp hp with rfl
              simp only
              intro he
              exact hnd2.1 (he ▸ List.mem_map_of_mem _ hx)
          · rcases List.mem_singleton.mp hp with rfl
            have hxl := hlt x (List.mem_cons_of_mem _ hx)
            simp only
            omega
        · have := (signMarksFrom_mem _ _ _ _ _ p hp).2
          have hxl := hlt x (List.mem_cons_of_mem _ hx)
          omega
      rw [bufName_setBuf_eq _ s _ _ buf ?hbf2 ?hnm2]
      case hbf2 => rfl
      case hnm2 => rfl
      simp only [renderedMarks, hh, if_true, regionMarkOf,
        List.append_assoc, List.singleton_append, List.nil_append, List.cons_append]

/-! ## The reload theorem: what a successful reload does to the state -/

theorem setBuf_update_isSyncing (s : HostState) (h : Int) (b : BufferState) (v : Bool) :
    ({ setBuf s h b with isSyncing := v }) = setBuf { s with isSyncing := v } h b := rfl

theorem setLinesE_full {s : HostState} {h : Int} {buf : BufferState}
    (hb : getBuf s h = some buf) (hmk : buf.marks = [])
    (hlen : buf.lines.length ≤ USIZE_MAX) (repl : List String) :
    setLinesE s h 0 USIZE_MAX repl =
      (.ok (), setBuf s h { buf with lines := repl, marks := [] }) := by
  unfold setLinesE
  rw [hb]
  simp only [List.take_zero, List.nil_append, Nat.zero_max, hmk, List.map_nil,
    List.drop_eq_nil_of_le hlen, List.append_nil]

theorem multibuf_reload_run {s : HostState} (h : Int)
    (hsync : s.isSyncing = false) (hbor : s.mbBorrowed = false) :
    multibuf_reload s h =
      ((multibuf_reload_body { s with isSyncing := true } h).1,
        { (multibuf_reload_body { s with isSyncing := true } h).2 with isSyncing := false }) := by
  unfold multibuf_reload
  rw [hsync, hbor]
  simp only [Bool.false_eq_true, if_false]

theorem multibuf_write_run {s : HostState} (h : Int)
    (hsync : s.isSyncing = false) (hbor : s.mbBorrowed = false) :
    multibuf_write s h =
      ((multibuf_write_body { s with isSyncing := true } h).1,
        { (multibuf_write_body { s with isSyncing := true } h).2 with isSyncing := false }) := by
  unfold multibuf_write
  rw [hsync, hbor]
  simp only [Bool.false_eq_true, if_false]

theorem reload_spec (s : HostState) (h : Int) (mb : MultibufState) (buf : BufferState)
    (H : ReloadReady s h mb buf) :
    multibuf_reload s h = (.ok (), reloadResult s h mb buf) := by
  obtain ⟨hsync, hbor, hfuel, hmb, hhd, hb, hlen, hns, hsrc, hlt, hnd⟩ := H
  have hfl : buf.marks.filter (fun p => p.1 ≠ mb.ns_id) = [] := by
    rw [List.filter_eq_nil_iff]
    intro a ha
    simp [hns a ha]
  have hcong : ∀ r ∈ mb.regions,
      getBuf (setBuf { s with isSyncing := true } h { buf with marks := [] })
        r.source_buf_handle = getBuf s r.source_buf_handle := by
    intro r hr
    rw [getBuf_setBuf_ne _ _ _ (hsrc r hr)]
    rfl
  rw [multibuf_reload_run h hsync hbor]
  simp only [multibuf_reload_body]
  rw [show assocGet h ({ s with isSyncing := true } : HostState).multibuffers = some mb
    from hmb]
  simp only [hhd]
  rw [clearNamespace_eq (show getBuf ({ s with isSyncing := true } : HostState) h =
    some buf from hb) mb.ns_id]
  simp only [hfl]
  rw [reloadLoop_eq]
  simp only [List.length_nil, List.nil_append]
  rw [renderAll_congr hcong, renderMetas_congr mb.regions hcong 0 (-1)]
  rw [setLinesE_full (getBuf_setBuf_self _ _ _) rfl (by exact hlen) _]
  simp only [setBuf_setBuf]
  rw [show ({ ({ buf with marks := [] } : BufferState) with
      lines := renderAll s mb.ns_id mb.regions, marks := ([] : List (Nat × Mark)) } :
      BufferState) =
    { buf with lines := renderAll s mb.ns_id mb.regions, marks := [] } from rfl]
  rw [applyMetas_spec h mb.ns_id (renderMetas s mb.ns_id mb.regions 0 (-1))
    { s with isSyncing := true }
    { buf with lines := renderAll s mb.ns_id mb.regions, marks := [] }
    s.nextMarkId ?fl ?bnds ?lts ?cc ?nds ?ids]
  case fl => exact hfuel
  case bnds =>
    intro m hm
    have hbd := renderMetas_bounds s mb.ns_id mb.regions 0 (-1) m hm
    refine ⟨hbd.2.1, ?_⟩
    show m.endRow ≤ (renderAll s mb.ns_id mb.regions).length
    omega
  case lts =>
    intro m hm
    exact hlt m.reg (renderMetas_reg_mem s mb.ns_id mb.regions 0 (-1) m hm)
  case cc => exact Nat.le_refl _
  case nds => exact (renderMetas_ids_sublist s mb.ns_id mb.regions 0 (-1)).nodup hnd
  case ids =>
    intro p hp
    simp at hp
  rw [show bufName (setBuf ({ s with isSyncing := true } : HostState) h
      { buf with lines := renderAll s mb.ns_id mb.regions, marks := [] }) = bufName s
    from bufName_update hb rfl rfl]
  simp only []
  rw [setOptionModified_eq (getBuf_setBuf_self _ _ _)]
  simp only [setBuf_update_isSyncing]
  unfold reloadResult
  simp only [List.nil_append]
  cases s with
  | mk bufs nbh nmi nni fl mbs stm isy mbB =>
    simp only at hsync
    subst hsync
    rfl

/-! ## Totality: with a healthy host, a reload can only fail by not finding
the virtual document, and a failing reload leaves the state untouched -/

theorem getBuf_setBuf_isSome {s : HostState} {h : Int} (b : BufferState) :
    ∀ x, (getBuf (setBuf s h b) x).isSome = ((getBuf s x).isSome || decide (x = h)) := by
  intro x
  by_cases hx : x = h
  · subst hx
    rw [getBuf_setBuf_self]
    simp
  · rw [getBuf_setBuf_ne _ _ _ hx]
    simp [hx]

theorem setExtmark_total {s : HostState} {h : Int}
    (hfuel : s.setExtmarkFuel = none) (hsome : (getBuf s h).isSome = true)
    (ns row : Nat) (idOpt endRowOpt : Option Nat) (deco : Deco) :
    ∃ i s', setExtmark s h ns row idOpt endRowOpt deco = (.ok i, s') ∧
      s'.setExtmarkFuel = none ∧
      (∀ x, (getBuf s' x).isSome = (getBuf s x).isSome) := by
  obtain ⟨buf, hb⟩ := Option.isSome_iff_exists.mp hsome
  have hkeep : ∀ (z : HostState) (b : BufferState), z.buffers = s.buffers →
      ∀ x, (getBuf (setBuf z h b) x).isSome = (getBuf s x).isSome := by
    intro z b hz x
    unfold getBuf setBuf
    simp only
    rw [hz]
    by_cases hx : x = h
    · subst hx
      rw [assocGet_assocSet_self]
      rw [show assocGet x s.buffers = some buf from hb]
      rfl
    · rw [assocGet_assocSet_ne _ _ hx]
  unfold setExtmark
  rw [hb, hfuel]
  cases idOpt with
  | some i =>
    by_cases hany : buf.marks.any (fun p => decide (p.1 = ns ∧ p.2.id = i)) = true
    · simp only [hany, if_true]
      exact ⟨i, _, rfl, by simp [hfuel], fun x => hkeep _ _ rfl x⟩
    · simp only [Bool.not_eq_true] at hany
      simp only [hany, Bool.false_eq_true, if_false]
      exact ⟨i, _, rfl, by simp [hfuel], fun x => hkeep _ _ rfl x⟩
  | none =>
    simp only [Option.map_none']
    exact ⟨s.nextMarkId, _, rfl, by simp [hfuel], fun x => hkeep _ _ rfl x⟩

theorem applySigns_total (h : Int) (ns a b : Nat) :
    ∀ (rows : List Nat) (s : HostState),
      s.setExtmarkFuel = none → (getBuf s h).isSome = true →
      ∃ s', applySigns h ns a b rows s = (.ok (), s') ∧
        s'.setExtmarkFuel = none ∧
        (∀ x, (getBuf s' x).isSome = (getBuf s x).isSome) := by
  intro rows
  induction rows with
  | nil =>
    intro s hfuel hsome
    exact ⟨s, rfl, hfuel, fun x => rfl⟩
  | cons i rest ih =>
    intro s hfuel hsome
    obtain ⟨j, s₁, hstep, hf₁, hk₁⟩ := setExtmark_total hfuel hsome ns i none none
      (.sign (signText (a + (i - b) + 1)) "LineNr" 100)
    obtain ⟨s₂, hrest, hf₂, hk₂⟩ := ih s₁ hf₁ (by rw [hk₁]; exact hsome)
    refine ⟨s₂, ?_, hf₂, fun x => by rw [hk₂, hk₁]⟩
    simp only [applySigns, hstep, hrest]

theorem applyMetas_total (h : Int) (ns : Nat) :
    ∀ (metas : List RegionMeta) (s : HostState),
      s.setExtmarkFuel = none → (getBuf s h).isSome = true →
      ∃ s', applyMetas h ns metas s = (.ok (), s') ∧
        s'.setExtmarkFuel = none ∧
        (∀ x, (getBuf s' x).isSome = (getBuf s x).isSome) := by
  intro metas
  induction metas with
  | nil =>
    intro s hfuel hsome
    exact ⟨s, rfl, hfuel, fun x => rfl⟩
  | cons m rest ih =>
    intro s hfuel hsome
    obtain ⟨j, s₁, hstep, hf₁, hk₁⟩ := setExtmark_total hfuel hsome ns m.startRow
      (some m.reg.source_extmark) (some m.endRow) .plain
    have hsome₁ : (getBuf s₁ h).isSome = true := by rw [hk₁]; exact hsome
    cases hh : m.header
    · obtain ⟨s₃, hsig, hf₃, hk₃⟩ := applySigns_total h ns m.srcStart m.startRow
        (List.range' m.startRow (m.endRow - m.startRow)) s₁ hf₁ hsome₁
      obtain ⟨s₄, hrest, hf₄, hk₄⟩ := ih s₃ hf₃ (by rw [hk₃]; exact hsome₁)
      refine ⟨s₄, ?_, hf₄, fun x => by rw [hk₄, hk₃, hk₁]⟩
      simp only [applyMetas, hstep, hh, Bool.false_eq_true, if_false, hsig, hrest]
    · obtain ⟨j₂, s₂, hstep2, hf₂, hk₂⟩ := setExtmark_total hf₁ hsome₁ ns m.startRow
        none none (.virtLines true (headerVirtLines (bufName s₁ m.reg.source_buf_handle)))
      obtain ⟨s₃, hsig, hf₃, hk₃⟩ := applySigns_total h ns m.srcStart m.startRow
        (List.range' m.startRow (m.endRow - m.startRow)) s₂ hf₂ (by rw [hk₂]; exact hsome₁)
      obtain ⟨s₄, hrest, hf₄, hk₄⟩ := ih s₃ hf₃ (by rw [hk₃, hk₂]; exact hsome₁)
      refine ⟨s₄, ?_, hf₄, fun x => by rw [hk₄, hk₃, hk₂, hk₁]⟩
      simp only [applyMetas, hstep, hh, if_true, hstep2, hsig, hrest]

theorem setLinesE_total {s : HostState} {h : Int}
    (hsome : (getBuf s h).isSome = true) (a b : Nat) (repl : List String) :
    ∃ s', setLinesE s h a b repl = (.ok (), s') ∧
      s'.setExtmarkFuel = s.setExtmarkFuel ∧
      (∀ x, (getBuf s' x).isSome = (getBuf s x).isSome) := by
  obtain ⟨buf, hb⟩ := Option.isSome_iff_exists.mp hsome
  unfold setLinesE
  rw [hb]
  refine ⟨_, rfl, rfl, ?_⟩
  intro x
  unfold getBuf setBuf
  simp only
  by_cases hx : x = h
  · subst hx
    rw [assocGet_assocSet_self]
    rw [show assocGet x s.buffers = some buf from hb]
    rfl
  · rw [assocGet_assocSet_ne _ _ hx]

theorem state_restore_eta {s : HostState} (hsync : s.isSyncing = false) :
    ({ s with isSyncing := false } : HostState) = s := by
  rw [← hsync]

theorem reload_fail (s : HostState) (h : Int)
    (hfuel : s.setExtmarkFuel = none) (hsync : s.isSyncing = false) :
    ∀ e, (multibuf_reload s h).1 = .error e → (multibuf_reload s h).2 = s := by
  intro e herr
  by_cases hbor : s.mbBorrowed = true
  · unfold multibuf_reload
    rw [hsync, hbor]
    simp
  · rw [Bool.not_eq_true] at hbor
    rw [multibuf_reload_run h hsync hbor] at herr ⊢
    simp only at herr ⊢
    cases hm : assocGet h ({ s with isSyncing := true } : HostState).multibuffers with
    | none =>
      simp only [multibuf_reload_body, hm]
      exact state_restore_eta hsync
    | some mb =>
      cases hcb : getBuf ({ s with isSyncing := true } : HostState) mb.handle with
      | none =>
        simp only [multibuf_reload_body, hm]
        rw [show clearNamespace ({ s with isSyncing := true } : HostState) mb.handle
            mb.ns_id = (.error "Invalid buffer",
            ({ s with isSyncing := true } : HostState)) from by
          unfold clearNamespace
          rw [hcb]]
        exact state_restore_eta hsync
      | some bufm =>
        exfalso
        simp only [multibuf_reload_body, hm] at herr
        rw [clearNamespace_eq hcb mb.ns_id] at herr
        simp only at herr
        generalize hG : setBuf ({ s with isSyncing := true } : HostState) mb.handle { bufm with marks := bufm.marks.filter (fun p => p.1 ≠ mb.ns_id) } = S₁ at herr
        have hsome₁ : (getBuf S₁ mb.handle).isSome = true := by
          rw [← hG, getBuf_setBuf_self]
          rfl
        have hfS₁ : S₁.setExtmarkFuel = none := by
          rw [← hG]
          exact hfuel
        obtain ⟨s₂, hsl, hf₂, hk₂⟩ := setLinesE_total hsome₁ 0 USIZE_MAX
          (reloadLoop S₁ mb.ns_id mb.regions [] (-1)).1
        rw [hsl] at herr
        simp only at herr
        obtain ⟨s₃, happ, hf₃, hk₃⟩ := applyMetas_total mb.handle mb.ns_id
          (reloadLoop S₁ mb.ns_id mb.regions [] (-1)).2 s₂
          (by rw [hf₂]; exact hfS₁) (by rw [hk₂]; exact hsome₁)
        rw [happ] at herr
        simp only at herr
        obtain ⟨bufl, hbl⟩ := Option.isSome_iff_exists.mp
          (show (getBuf s₃ mb.handle).isSome = true from by
            rw [hk₃, hk₂]
            exact hsome₁)
        rw [setOptionModified_eq hbl] at herr
        simp at herr

/-! ## Context-resolution scan over the rendered decorations -/

theorem ctxScan_append_skip (S : HostState) (mb : MultibufState) (line : Nat) :
    ∀ (l₁ l₂ : List Mark),
      (∀ mk ∈ l₁, ∀ r ∈ mb.regions, r.source_extmark ≠ mk.id) →
      ctxScan S mb line (l₁ ++ l₂) = ctxScan S mb line l₂ := by
  intro l₁
  induction l₁ with
  | nil => intro l₂ _; rfl
  | cons mk rest ih =>
    intro l₂ hno
    have hfind : mb.regions.find? (fun r => r.source_extmark == mk.id) = none :=
      List.find?_eq_none.mpr (fun r hr => by
        simp only [beq_iff_eq]
        exact hno mk (List.mem_cons_self _ _) r hr)
    simp only [List.cons_append, ctxScan]
    by_cases hcov : mk.row ≤ line ∧ line < mk.endRow.getD (mk.row + 1)
    · rw [if_pos hcov, hfind]
      exact ih l₂ (fun a ha r hr => hno a (List.mem_cons_of_mem _ ha) r hr)
    · rw [if_neg hcov]
      exact ih l₂ (fun a ha r hr => hno a (List.mem_cons_of_mem _ ha) r hr)

theorem signMarksFrom_snd_ge (ns a b : Nat) (rows : List Nat) (c : Nat) :
    c ≤ (signMarksFrom ns a b rows c).2 := by
  rw [signMarksFrom_snd]
  omega

theorem ctxScan_rendered (S : HostState) (mb : MultibufState) (names : Int → String) :
    ∀ (metas : List RegionMeta) (c : Nat) (line : Nat),
      (∀ r ∈ mb.regions, r.source_extmark < c) →
      (∀ m ∈ metas, mb.regions.find?
        (fun r => r.source_extmark == m.reg.source_extmark) = some m.reg) →
      (∀ m ∈ metas, ∃ se, get_extmark_range S m.reg.source_buf_handle mb.ns_id
        m.reg.source_extmark = some (m.srcStart, se)) →
      ctxScan S mb line ((renderedMarks names mb.ns_id metas c).1.map Prod.snd) =
        (metas.find? (fun m => decide (m.startRow ≤ line ∧ line < m.endRow))).map
          (fun m => ⟨m.reg.source_buf_handle, m.srcStart + (line - m.startRow)⟩) := by
  intro metas
  induction metas with
  | nil => intro c line _ _ _; simp [renderedMarks, ctxScan]
  | cons m rest ih =>
    intro c line hreg hfind hres
    have hfm := hfind m (List.mem_cons_self _ _)
    obtain ⟨se, hrm⟩ := hres m (List.mem_cons_self _ _)
    have hfindR : ∀ x ∈ rest, mb.regions.find?
        (fun r => r.source_extmark == x.reg.source_extmark) = some x.reg :=
      fun x hx => hfind x (List.mem_cons_of_mem _ hx)
    have hresR : ∀ x ∈ rest, ∃ se, get_extmark_range S x.reg.source_buf_handle mb.ns_id
        x.reg.source_extmark = some (x.srcStart, se) :=
      fun x hx => hres x (List.mem_cons_of_mem _ hx)
    have hskipsigns : ∀ (c' : Nat), c ≤ c' →
        ∀ mk ∈ (signMarksFrom mb.ns_id m.srcStart m.startRow
          (List.range' m.startRow (m.endRow - m.startRow)) c').1.map Prod.snd,
        ∀ r ∈ mb.regions, r.source_extmark ≠ mk.id := by
      intro c' hc' mk hmk r hr
      obtain ⟨p, hp, rfl⟩ := List.mem_map.mp hmk
      have := (signMarksFrom_mem _ _ _ _ _ p hp).2
      have := hreg r hr
      omega
    cases hh : m.header
    · simp only [renderedMarks, hh, Bool.false_eq_true, if_false, List.nil_append,
        List.map_cons, List.map_append]
      by_cases hcov : m.startRow ≤ line ∧ line < m.endRow
      · simp only [ctxScan, regionMarkOf, Option.getD_some]
        rw [if_pos hcov]
        simp only [hfm, hrm]
        rw [List.find?_cons_of_pos _ (by simpa using hcov)]
        rfl
      · simp only [ctxScan, regionMarkOf, Option.getD_some]
        rw [if_neg hcov]
        rw [List.find?_cons_of_neg _ (by simpa using hcov)]
        rw [ctxScan_append_skip S mb line _ _ (hskipsigns c (Nat.le_refl _))]
        refine ih _ line (fun r hr => ?_) hfindR hresR
        have := hreg r hr
        have := signMarksFrom_snd_ge mb.ns_id m.srcStart m.startRow
          (List.range' m.startRow (m.endRow - m.startRow)) c
        omega
    · simp only [renderedMarks, hh, if_true, List.singleton_append,
        List.map_cons, List.map_append]
      by_cases hcov : m.startRow ≤ line ∧ line < m.endRow
      · simp only [ctxScan, regionMarkOf, Option.getD_some]
        rw [if_pos hcov]
        simp only [hfm, hrm]
        rw [List.find?_cons_of_pos _ (by simpa using hcov)]
        rfl
      · simp only [ctxScan, regionMarkOf, Option.getD_some]
        rw [if_neg hcov]
        rw [List.find?_cons_of_neg _ (by simpa using hcov)]
        have hfc : mb.regions.find? (fun r => r.source_extmark == c) = none :=
          List.find?_eq_none.mpr (fun r hr => by
            simp only [beq_iff_eq]
            have := hreg r hr
            omega)
        simp only [Option.getD_none]
        by_cases hcov2 : m.startRow ≤ line ∧ line < m.startRow + 1
        · rw [if_pos hcov2]
          simp only [hfc]
          rw [ctxScan_append_skip S mb line _ _ (hskipsigns (c + 1) (by omega))]
          refine ih _ line (fun r hr => ?_) hfindR hresR
          have := hreg r hr
          have := signMarksFrom_snd_ge mb.ns_id m.srcStart m.startRow
            (List.range' m.startRow (m.endRow - m.startRow)) (c + 1)
          omega
        · rw [if_neg hcov2]
          rw [ctxScan_append_skip S mb line _ _ (hskipsigns (c + 1) (by omega))]
          refine ih _ line (fun r hr => ?_) hfindR hresR
          have := hreg r hr
          have := signMarksFrom_snd_ge mb.ns_id m.srcStart m.startRow
            (List.range' m.startRow (m.endRow - m.startRow)) (c + 1)
          omega

/-! ## Write-back loop helpers -/

theorem renderRegion_some_elim {s : HostState} {ns : Nat} {r : RegionState}
    {ss : Nat} {lines : List String}
    (h : renderRegion s ns r = some (ss, lines)) :
    ∃ se srcbuf, get_extmark_range s r.source_buf_handle ns r.source_extmark = some (ss, se) ∧
      getBuf s r.source_buf_handle = some srcbuf ∧
      lines = (srcbuf.lines.take se).drop ss := by
  unfold renderRegion at h
  cases hgr : get_extmark_range s r.source_buf_handle ns r.source_extmark with
  | none => rw [hgr] at h; exact absurd h (by simp)
  | some p =>
    obtain ⟨ss', se⟩ := p
    rw [hgr] at h
    cases hgl : getLinesE s r.source_buf_handle ss' se with
    | error e =>
      simp only [hgl] at h
      exact absurd h (by simp)
    | ok ls =>
      simp only [hgl] at h
      simp only [Option.some.injEq, Prod.mk.injEq] at h
      obtain ⟨rfl, rfl⟩ := h
      unfold getLinesE at hgl
      cases hb : getBuf s r.source_buf_handle with
      | none => rw [hb] at hgl; exact absurd hgl (by simp)
      | some srcbuf =>
        rw [hb] at hgl
        simp only [Except.ok.injEq] at hgl
        exact ⟨se, srcbuf, rfl, rfl, hgl.symm⟩

theorem writeRegionStep_skip_nomark {S : HostState} {mbuf : Int} {ns : Nat}
    {marks : List Mark} {r : RegionState}
    (h : marks.find? (fun m => m.id == r.source_extmark) = none) :
    writeRegionStep S mbuf ns marks r = S := by
  unfold writeRegionStep
  rw [h]

theorem writeRegionStep_skip_nores {S : HostState} {mbuf : Int} {ns : Nat}
    {marks : List Mark} {r : RegionState} {mark : Mark}
    (h1 : marks.find? (fun m => m.id == r.source_extmark) = some mark)
    (h2 : get_extmark_range S r.source_buf_handle ns r.source_extmark = none) :
    writeRegionStep S mbuf ns marks r = S := by
  unfold writeRegionStep
  rw [h1]
  simp only [h2]

theorem writeLoop_const (mbuf : Int) (ns : Nat) (marks : List Mark) :
    ∀ (regions : List RegionState) (S : HostState),
      (∀ r ∈ regions, writeRegionStep S mbuf ns marks r = S) →
      writeLoop mbuf ns marks regions S = S := by
  intro regions
  induction regions with
  | nil => intro S _; rfl
  | cons r rest ih =>
    intro S hfix
    have h1 := hfix r (List.mem_cons_self _ _)
    simp only [writeLoop, h1]
    exact ih S (fun x hx => hfix x (List.mem_cons_of_mem _ hx))

theorem setLinesE_snd_isSome (S : HostState) (h : Int) (a b : Nat) (repl : List String) :
    ∀ x, (getBuf (setLinesE S h a b repl).2 x).isSome = (getBuf S x).isSome := by
  intro x
  cases hb : getBuf S h with
  | none =>
    unfold setLinesE
    rw [hb]
  | some buf =>
    obtain ⟨s', heq, _, hk⟩ := setLinesE_total (by rw [hb]; rfl : (getBuf S h).isSome = true)
      a b repl
    rw [heq]
    exact hk x

theorem writeRegionStep_isSome (S : HostState) (mbuf : Int) (ns : Nat)
    (marks : List Mark) (r : RegionState) :
    ∀ x, (getBuf (writeRegionStep S mbuf ns marks r) x).isSome = (getBuf S x).isSome := by
  intro x
  unfold writeRegionStep
  cases marks.find? (fun m => m.id == r.source_extmark) with
  | none => rfl
  | some mark =>
    simp only
    cases get_extmark_range S r.source_buf_handle ns r.source_extmark with
    | none => rfl
    | some p =>
      obtain ⟨ss, se⟩ := p
      simp only
      cases getLinesE S mbuf mark.row (mark.endRow.getD (mark.row + 1)) with
      | error e => rfl
      | ok lines => exact setLinesE_snd_isSome S r.source_buf_handle ss se lines x

theorem writeLoop_isSome (mbuf : Int) (ns : Nat) (marks : List Mark) :
    ∀ (regions : List RegionState) (S : HostState) (x : Int),
      (getBuf (writeLoop mbuf ns marks regions S) x).isSome = (getBuf S x).isSome := by
  intro regions
  induction regions with
  | nil => intro S x; rfl
  | cons r rest ih =>
    intro S x
    simp only [writeLoop]
    rw [ih]
    exact writeRegionStep_isSome S mbuf ns marks r x

/-! ## Properties of the reload target state -/

theorem reloadResult_getBuf_ne (s : HostState) (h : Int) (mb : MultibufState)
    (buf : BufferState) {x : Int} (hx : x ≠ h) :
    getBuf (reloadResult s h mb buf) x = getBuf s x := by
  unfold reloadResult
  rw [getBuf_setBuf_ne _ _ _ hx]
  rfl

theorem reloadResult_getBuf_self (s : HostState) (h : Int) (mb : MultibufState)
    (buf : BufferState) :
    getBuf (reloadResult s h mb buf) h = some (reloadBuf s h mb buf) := by
  unfold reloadResult reloadBuf
  rw [getBuf_setBuf_self]

theorem reloadResult_renderAll (s : HostState) (h : Int) (mb : MultibufState)
    (buf : BufferState) (hsrc : ∀ r ∈ mb.regions, r.source_buf_handle ≠ h) :
    renderAll (reloadResult s h mb buf) mb.ns_id mb.regions =
      renderAll s mb.ns_id mb.regions :=
  renderAll_congr (fun r hr => reloadResult_getBuf_ne s h mb buf (hsrc r hr))

theorem reloadResult_renderMetas (s : HostState) (h : Int) (mb : MultibufState)
    (buf : BufferState) (hsrc : ∀ r ∈ mb.regions, r.source_buf_handle ≠ h)
    (pos : Nat) (lb : Int) :
    renderMetas (reloadResult s h mb buf) mb.ns_id mb.regions pos lb =
      renderMetas s mb.ns_id mb.regions pos lb :=
  renderMetas_congr mb.regions
    (fun r hr => reloadResult_getBuf_ne s h mb buf (hsrc r hr)) pos lb

theorem reloadResult_bufName (s : HostState) (h : Int) (mb : MultibufState)
    (buf : BufferState) (hb : getBuf s h = some buf) :
    bufName (reloadResult s h mb buf) = bufName s :=
  bufName_update hb
    (show (reloadResult s h mb buf).buffers =
      assocSet h (reloadBuf s h mb buf) s.buffers from rfl)
    rfl

/-! ## Layout congruence (for idempotence up to auto-allocated ids) -/

theorem signMarksFrom_layout (ns a b : Nat) :
    ∀ (rows : List Nat) (c₁ c₂ : Nat),
      (signMarksFrom ns a b rows c₁).1.map markLayout =
      (signMarksFrom ns a b rows c₂).1.map markLayout := by
  intro rows
  induction rows with
  | nil => intro c₁ c₂; rfl
  | cons i rest ih =>
    intro c₁ c₂
    simp only [signMarksFrom, List.map_cons, markLayout]
    rw [ih (c₁ + 1) (c₂ + 1)]

theorem renderedMarks_layout_congr (ns : Nat) :
    ∀ (metas : List RegionMeta) (names₁ names₂ : Int → String) (c₁ c₂ : Nat),
      (∀ x, names₁ x = names₂ x) →
      (renderedMarks names₁ ns metas c₁).1.map markLayout =
      (renderedMarks names₂ ns metas c₂).1.map markLayout := by
  intro metas
  induction metas with
  | nil => intro names₁ names₂ c₁ c₂ _; rfl
  | cons m rest ih =>
    intro names₁ names₂ c₁ c₂ hn
    cases hh : m.header
    · simp only [renderedMarks, hh, Bool.false_eq_true, if_false, List.nil_append,
        List.map_cons, List.map_append, markLayout]
      rw [signMarksFrom_layout ns m.srcStart m.startRow _ c₁ c₂,
        ih names₁ names₂ (signMarksFrom ns m.srcStart m.startRow
          (List.range' m.startRow (m.endRow - m.startRow)) c₁).2
          (signMarksFrom ns m.srcStart m.startRow
            (List.range' m.startRow (m.endRow - m.startRow)) c₂).2 hn]
    · simp only [renderedMarks, hh, if_true, List.singleton_append,
        List.map_cons, List.map_append, markLayout]
      rw [hn m.reg.source_buf_handle]
      rw [signMarksFrom_layout ns m.srcStart m.startRow _ (c₁ + 1) (c₂ + 1),
        ih names₁ names₂ (signMarksFrom ns m.srcStart m.startRow
          (List.range' m.startRow (m.endRow - m.startRow)) (c₁ + 1)).2
          (signMarksFrom ns m.srcStart m.startRow
            (List.range' m.startRow (m.endRow - m.startRow)) (c₂ + 1)).2 hn]

/-! ## The claims -/

/-! ## The region-append loop of `multibuf_add_buffer` -/

theorem getBuf_pushRegion (s : HostState) (hh : Int) (r : RegionState) (x : Int) :
    getBuf (pushRegion s hh r) x = getBuf s x := rfl

theorem assocGet_map_cond {β : Type} (k : Int) (f : β → β) :
    ∀ (l : List (Int × β)),
      assocGet k (l.map (fun p => if p.1 = k then (p.1, f p.2) else p)) =
        (assocGet k l).map f := by
  intro l
  induction l with
  | nil => rfl
  | cons p rest ih =>
    by_cases hp : p.1 = k
    · simp [assocGet, hp]
    · simp [assocGet, hp, ih]

theorem assocGet_pushRegion (s : HostState) (hh : Int) (r : RegionState) :
    assocGet hh (pushRegion s hh r).multibuffers =
      (assocGet hh s.multibuffers).map
        (fun m => { m with regions := m.regions ++ [r] }) := by
  unfold pushRegion
  exact assocGet_map_cond hh (fun m => { m with regions := m.regions ++ [r] })
    s.multibuffers

theorem assocGet_pushRegion_clear (s : HostState) (hh : Int) (r : RegionState)
    (mb : MultibufState) (hmb : assocGet hh s.multibuffers = some mb) :
    (assocGet hh ({ pushRegion s hh r with mbBorrowed := false } :
      HostState).multibuffers).map (fun m => m.regions) =
      some (mb.regions ++ [r]) := by
  show (assocGet hh (pushRegion s hh r).multibuffers).map (fun m => m.regions) = _
  rw [assocGet_pushRegion, hmb]
  rfl

theorem addRegionsLoop_two_fail (src mbh : Int) (ns : Nat) (a₁ b₁ a₂ b₂ : Nat)
    (S : HostState) (srcbuf : BufferState)
    (hgb : getBuf S src = some srcbuf) (hfuel : S.setExtmarkFuel = some 1)
    (h₁ : a₁ ≤ b₁) (h₂ : a₂ ≤ b₂) :
    addRegionsLoop src mbh ns [⟨a₁, b₁⟩, ⟨a₂, b₂⟩] S =
      (.error "set_extmark failed", addFailState S src mbh ns a₁ b₁ srcbuf) := by
  unfold addFailState
  simp only [addRegionsLoop]
  rw [if_pos h₁]
  rw [setExtmark_alloc_fuel_eq hgb (show S.setExtmarkFuel = some (0 + 1) from hfuel) ns a₁
    (some (b₁ + 1)) Deco.plain]
  simp only [Option.map_some']
  rw [if_pos h₂]
  rw [setExtmark_fail_eq ?gb2 ?f2 ns a₂ none (some (b₂ + 1)) Deco.plain]
  case gb2 =>
    rw [getBuf_pushRegion]
    exact getBuf_setBuf_self _ _ _
  case f2 => rfl

/-- Claim C1: round-trip — from a well-formed configuration, a reload
followed immediately by a write-back (no intervening edit of the virtual
document) succeeds and leaves every source document byte-for-byte
unchanged: each region's write-back replaces its source range with that
range's own current content. -/
theorem C1_reload_write_roundtrip (s : HostState) (h : Int) (mb : MultibufState)
    (buf : BufferState) (H : ReloadReady s h mb buf) :
    (multibuf_write (multibuf_reload s h).2 h).1 = .ok () ∧
    ∀ b, b ≠ h → getBuf (multibuf_write (multibuf_reload s h).2 h).2 b = getBuf s b := by
  obtain ⟨hsync, hbor, hfuel, hmb, hhd, hb, hlen, hns, hsrc, hlt, hnd⟩ := H
  have hmbT : assocGet h ({ reloadResult s h mb buf with isSyncing := true } :
      HostState).multibuffers = some mb := by
    show assocGet h (reloadResult s h mb buf).multibuffers = some mb
    unfold reloadResult
    rw [setBuf_multibuffers]
    exact hmb
  have hgbT : getBuf ({ reloadResult s h mb buf with isSyncing := true } : HostState) h =
      some (reloadBuf s h mb buf) := by
    show getBuf (reloadResult s h mb buf) h = some (reloadBuf s h mb buf)
    exact reloadResult_getBuf_self s h mb buf
  have hflT : (reloadBuf s h mb buf).marks.filter (fun p => p.1 = mb.ns_id) =
      (reloadBuf s h mb buf).marks :=
    List.filter_eq_self.mpr (fun p hp => by
      simp only [decide_eq_true_eq]
      exact renderedMarks_ns (bufName s) mb.ns_id _ s.nextMarkId p hp)
  have hextT : getExtmarks ({ reloadResult s h mb buf with isSyncing := true } : HostState)
      h mb.ns_id = .ok ((renderedMarks (bufName s) mb.ns_id
        (renderMetas s mb.ns_id mb.regions 0 (-1)) s.nextMarkId).1.map Prod.snd) := by
    rw [getExtmarks_eq hgbT mb.ns_id, hflT]
    rfl
  have hcongr : ∀ r ∈ mb.regions,
      getBuf ({ reloadResult s h mb buf with isSyncing := true } : HostState)
        r.source_buf_handle = getBuf s r.source_buf_handle := by
    intro r hr
    show getBuf (reloadResult s h mb buf) r.source_buf_handle = getBuf s r.source_buf_handle
    exact reloadResult_getBuf_ne s h mb buf (hsrc r hr)
  have hwl : writeLoop h mb.ns_id ((renderedMarks (bufName s) mb.ns_id
      (renderMetas s mb.ns_id mb.regions 0 (-1)) s.nextMarkId).1.map Prod.snd) mb.regions
      ({ reloadResult s h mb buf with isSyncing := true } : HostState) =
      ({ reloadResult s h mb buf with isSyncing := true } : HostState) := by
    refine writeLoop_const h mb.ns_id _ mb.regions _ (fun r hr => ?_)
    cases hrr : renderRegion s mb.ns_id r with
    | none =>
      refine writeRegionStep_skip_nomark ?_
      rw [renderedMarks_find (bufName s) mb.ns_id _ s.nextMarkId r.source_extmark
        ((renderMetas_ids_sublist s mb.ns_id mb.regions 0 (-1)).nodup hnd)
        (fun m hm => hlt m.reg (renderMetas_reg_mem s mb.ns_id mb.regions 0 (-1) m hm))
        (hlt r hr)]
      rw [renderMetas_find_of_none s mb.ns_id mb.regions 0 (-1) r hnd hr hrr]
      rfl
    | some q =>
      obtain ⟨ss, lines⟩ := q
      obtain ⟨m, hfm, hmr⟩ := renderMetas_find_of_some s mb.ns_id mb.regions 0 (-1) r ss
        lines hnd hr hrr
      have hmem := List.mem_of_find?_eq_some hfm
      obtain ⟨lines₀, hrr₀, hend, hsl⟩ := renderMetas_mem_spec s mb.ns_id mb.regions 0 (-1)
        [] rfl m hmem
      rw [hmr, hrr] at hrr₀
      have hq := Option.some.inj hrr₀
      have hlines : lines = lines₀ := congrArg Prod.snd hq
      obtain ⟨se, srcbuf, hger, hgbsrc, hlineseq⟩ := renderRegion_some_elim hrr
      have hfindMark : (((renderedMarks (bufName s) mb.ns_id
          (renderMetas s mb.ns_id mb.regions 0 (-1)) s.nextMarkId).1.map Prod.snd).find?
          (fun mk => mk.id == r.source_extmark)) = some (regionMarkOf m) := by
        rw [renderedMarks_find (bufName s) mb.ns_id _ s.nextMarkId r.source_extmark
          ((renderMetas_ids_sublist s mb.ns_id mb.regions 0 (-1)).nodup hnd)
          (fun x hx => hlt x.reg (renderMetas_reg_mem s mb.ns_id mb.regions 0 (-1) x hx))
          (hlt r hr)]
        rw [hfm]
        rfl
      have hgerT : get_extmark_range ({ reloadResult s h mb buf with isSyncing := true } :
          HostState) r.source_buf_handle mb.ns_id r.source_extmark = some (ss, se) := by
        rw [get_extmark_range_congr (hcongr r hr), hger]
      have hsl₂ : ((renderAll s mb.ns_id mb.regions).take m.endRow).drop m.startRow =
          lines₀ := by
        simpa using hsl
      have hglT : getLinesE ({ reloadResult s h mb buf with isSyncing := true } : HostState)
          h m.startRow m.endRow = .ok lines := by
        rw [getLinesE_eq hgbT m.startRow m.endRow,
          show (reloadBuf s h mb buf).lines = renderAll s mb.ns_id mb.regions from rfl,
          hsl₂, hlines]
      have hgbsrcT : getBuf ({ reloadResult s h mb buf with isSyncing := true } : HostState)
          r.source_buf_handle = some srcbuf := by
        rw [hcongr r hr]
        exact hgbsrc
      unfold writeRegionStep
      rw [hfindMark]
      simp only [regionMarkOf, Option.getD_some]
      rw [hgerT]
      simp only []
      rw [hglT]
      simp only []
      rw [hlineseq, setLinesE_slice_id hgbsrcT ss se]
  have hbody : multibuf_write_body ({ reloadResult s h mb buf with isSyncing := true } :
      HostState) h = (.ok (), ({ reloadResult s h mb buf with isSyncing := true } :
      HostState)) := by
    unfold multibuf_write_body
    simp only [hmbT]
    simp only [hhd]
    simp only [hextT]
    rw [hwl, setOptionModified_eq hgbT]
  have hwrite : multibuf_write (reloadResult s h mb buf) h =
      (.ok (), reloadResult s h mb buf) := by
    rw [multibuf_write_run h (show (reloadResult s h mb buf).isSyncing = false from hsync)
      (show (reloadResult s h mb buf).mbBorrowed = false from hbor)]
    rw [hbody]
    show ((Except.ok () : Except String Unit),
        ({ reloadResult s h mb buf with isSyncing := false } : HostState)) =
      ((Except.ok () : Except String Unit), reloadResult s h mb buf)
    rw [@state_restore_eta (reloadResult s h mb buf) hsync]
  rw [reload_spec s h mb buf ⟨hsync, hbor, hfuel, hmb, hhd, hb, hlen, hns, hsrc, hlt, hnd⟩]
  refine ⟨?_, fun b hbne => ?_⟩
  · show (multibuf_write (reloadResult s h mb buf) h).1 = .ok ()
    rw [hwrite]
  · show getBuf (multibuf_write (reloadResult s h mb buf) h).2 b = getBuf s b
    rw [hwrite]
    exact reloadResult_getBuf_ne s h mb buf hbne

/-- Claim C4: write-back swallows per-region failures — a region whose
decoration is missing from the virtual document, or whose source sticky
range no longer resolves, is skipped without error and the loop continues;
whenever the virtual document exists, the whole write-back returns
success, and it returns an error when the multibuffer is not registered. -/
theorem C4_write_failures_swallowed (s : HostState) (h : Int)
    (hsync : s.isSyncing = false) (hbor : s.mbBorrowed = false) :
    (assocGet h s.multibuffers = none →
      multibuf_write s h = (.error "Multibuffer not found", s)) ∧
    (∀ mb buf, assocGet h s.multibuffers = some mb → getBuf s mb.handle = some buf →
      (multibuf_write s h).1 = .ok ()) ∧
    (∀ (S : HostState) (mbuf : Int) (ns : Nat) (marks : List Mark) (r : RegionState),
      marks.find? (fun m => m.id == r.source_extmark) = none →
      writeRegionStep S mbuf ns marks r = S) ∧
    (∀ (S : HostState) (mbuf : Int) (ns : Nat) (marks : List Mark) (r : RegionState)
      (mark : Mark),
      marks.find? (fun m => m.id == r.source_extmark) = some mark →
      get_extmark_range S r.source_buf_handle ns r.source_extmark = none →
      writeRegionStep S mbuf ns marks r = S) := by
  refine ⟨fun hnone => ?_, fun mb buf hsome hgb => ?_,
    fun S mbuf ns marks r hf => writeRegionStep_skip_nomark hf,
    fun S mbuf ns marks r mark h1 h2 => writeRegionStep_skip_nores h1 h2⟩
  · rw [multibuf_write_run h hsync hbor]
    unfold multibuf_write_body
    simp only [show assocGet h ({ s with isSyncing := true } : HostState).multibuffers =
      none from hnone]
    rw [show ({ ({ s with isSyncing := true } : HostState) with isSyncing := false } :
      HostState) = s from @state_restore_eta s hsync]
  · rw [multibuf_write_run h hsync hbor]
    show (multibuf_write_body ({ s with isSyncing := true } : HostState) h).1 = .ok ()
    unfold multibuf_write_body
    simp only [show assocGet h ({ s with isSyncing := true } : HostState).multibuffers =
      some mb from hsome]
    have hgbT : getBuf ({ s with isSyncing := true } : HostState) mb.handle = some buf := hgb
    simp only [getExtmarks_eq hgbT mb.ns_id]
    have hv : (getBuf (writeLoop mb.handle mb.ns_id
        ((buf.marks.filter (fun p => p.1 = mb.ns_id)).map Prod.snd) mb.regions
        ({ s with isSyncing := true } : HostState)) mb.handle).isSome = true := by
      rw [writeLoop_isSome]
      rw [hgbT]
      rfl
    obtain ⟨buf₂, hbuf₂⟩ := Option.isSome_iff_exists.mp hv
    rw [setOptionModified_eq hbuf₂]

/-- Claim C2: while a synchronization operation holds the process-wide
recursion guard, `multibuf_reload`, `multibuf_write` and the source-change
notification handler `sync_source_to_mbufs` all return immediately as
successful no-ops with no state change (so a write-back whose source
mutation fires a synchronous source-change notification never triggers a
second write-back or a reload chain); and on every exit path of reload and
write-back — normal, early return or error — the guard ends up released,
leaving the guard flag exactly as it was before the call. -/
theorem C2_guard_reentrancy (s : HostState) (h src : Int) :
    (s.isSyncing = true →
      multibuf_reload s h = (.ok (), s) ∧
      multibuf_write s h = (.ok (), s) ∧
      sync_source_to_mbufs s src = (.ok (), s)) ∧
    (multibuf_reload s h).2.isSyncing = s.isSyncing ∧
    (multibuf_write s h).2.isSyncing = s.isSyncing := by
  refine ⟨fun hs => ⟨?_, ?_, ?_⟩, ?_, ?_⟩
  · simp [multibuf_reload, hs]
  · simp [multibuf_write, hs]
  · simp [sync_source_to_mbufs, hs]
  · by_cases hs : s.isSyncing = true
    · simp [multibuf_reload, hs]
    · rw [Bool.not_eq_true] at hs
      by_cases hbor : s.mbBorrowed = true
      · simp [multibuf_reload, hs, hbor]
      · rw [Bool.not_eq_true] at hbor
        simp [multibuf_reload, hs, hbor]
  · by_cases hs : s.isSyncing = true
    · simp [multibuf_write, hs]
    · rw [Bool.not_eq_true] at hs
      by_cases hbor : s.mbBorrowed = true
      · simp [multibuf_write, hs, hbor]
      · rw [Bool.not_eq_true] at hbor
        simp [multibuf_write, hs, hbor]

/-- Claim C3: reloading twice in a row from a well-formed configuration is
idempotent up to the decoration ids the host allocates afresh: the second
reload succeeds, the rendered lines are identical, and the decorations
agree position for position — same namespace, row, end row and payload —
differing at most in the auto-allocated extmark ids. -/
theorem C3_reload_idempotent (s : HostState) (h : Int) (mb : MultibufState)
    (buf : BufferState) (H : ReloadReady s h mb buf)
    (hlen2 : (renderAll s mb.ns_id mb.regions).length ≤ USIZE_MAX) :
    (multibuf_reload (multibuf_reload s h).2 h).1 = .ok () ∧
    ∃ b₁ b₂,
      getBuf (multibuf_reload s h).2 h = some b₁ ∧
      getBuf (multibuf_reload (multibuf_reload s h).2 h).2 h = some b₂ ∧
      b₂.lines = b₁.lines ∧
      b₂.marks.map markLayout = b₁.marks.map markLayout := by
  obtain ⟨hsync, hbor, hfuel, hmb, hhd, hb, hlen, hns, hsrc, hlt, hnd⟩ := H
  rw [reload_spec s h mb buf ⟨hsync, hbor, hfuel, hmb, hhd, hb, hlen, hns, hsrc, hlt, hnd⟩]
  have H1 : ReloadReady (reloadResult s h mb buf) h mb (reloadBuf s h mb buf) := by
    refine ⟨hsync, hbor, hfuel, ?_, hhd, reloadResult_getBuf_self s h mb buf, ?_, ?_,
      hsrc, ?_, hnd⟩
    · unfold reloadResult
      rw [setBuf_multibuffers]
      exact hmb
    · exact hlen2
    · exact fun p hp => renderedMarks_ns (bufName s) mb.ns_id _ s.nextMarkId p hp
    · intro r hr
      exact Nat.lt_of_lt_of_le (hlt r hr)
        (renderedMarks_snd_ge (bufName s) mb.ns_id _ s.nextMarkId)
  rw [reload_spec (reloadResult s h mb buf) h mb _ H1]
  refine ⟨rfl, _, _, reloadResult_getBuf_self s h mb buf,
    reloadResult_getBuf_self (reloadResult s h mb buf) h mb _, ?_, ?_⟩
  · show renderAll (reloadResult s h mb buf) mb.ns_id mb.regions =
      renderAll s mb.ns_id mb.regions
    exact reloadResult_renderAll s h mb buf hsrc
  · show (renderedMarks (bufName (reloadResult s h mb buf)) mb.ns_id
        (renderMetas (reloadResult s h mb buf) mb.ns_id mb.regions 0 (-1))
        (reloadResult s h mb buf).nextMarkId).1.map markLayout =
      (renderedMarks (bufName s) mb.ns_id
        (renderMetas s mb.ns_id mb.regions 0 (-1)) s.nextMarkId).1.map markLayout
    rw [reloadResult_renderMetas s h mb buf hsrc 0 (-1)]
    exact renderedMarks_layout_congr mb.ns_id
      (renderMetas s mb.ns_id mb.regions 0 (-1))
      (bufName (reloadResult s h mb buf)) (bufName s)
      (reloadResult s h mb buf).nextMarkId s.nextMarkId
      (fun x => congrFun (reloadResult_bufName s h mb buf hb) x)

/-- Claim C5: after a reload, `multibuf_get_context` resolves a virtual
line through the first recorded region covering it, returning that
region's source buffer together with the source line obtained by adding
the line's offset within the region to the region's current source start;
it returns `none` inside the result when no region covers the line, and
the query leaves the whole state untouched. -/
theorem C5_get_context_resolution (s : HostState) (h : Int) (mb : MultibufState)
    (buf : BufferState) (H : ReloadReady s h mb buf) (line : Nat) :
    multibuf_get_context (multibuf_reload s h).2 h line =
      (.ok (((renderMetas s mb.ns_id mb.regions 0 (-1)).find?
          (fun m => decide (m.startRow ≤ line ∧ line < m.endRow))).map
        (fun m => ⟨m.reg.source_buf_handle, m.srcStart + (line - m.startRow)⟩)),
       (multibuf_reload s h).2) := by
  obtain ⟨hsync, hbor, hfuel, hmb, hhd, hb, hlen, hns, hsrc, hlt, hnd⟩ := H
  rw [reload_spec s h mb buf ⟨hsync, hbor, hfuel, hmb, hhd, hb, hlen, hns, hsrc, hlt, hnd⟩]
  have hmb1 : assocGet h (reloadResult s h mb buf).multibuffers = some mb := by
    unfold reloadResult
    rw [setBuf_multibuffers]
    exact hmb
  have hfl : (reloadBuf s h mb buf).marks.filter (fun p => p.1 = mb.ns_id) =
      (reloadBuf s h mb buf).marks :=
    List.filter_eq_self.mpr (fun p hp => by
      simp only [decide_eq_true_eq]
      exact renderedMarks_ns (bufName s) mb.ns_id _ s.nextMarkId p hp)
  have hext : getExtmarks (reloadResult s h mb buf) mb.handle mb.ns_id =
      .ok ((renderedMarks (bufName s) mb.ns_id
        (renderMetas s mb.ns_id mb.regions 0 (-1)) s.nextMarkId).1.map Prod.snd) := by
    rw [hhd, getExtmarks_eq (reloadResult_getBuf_self s h mb buf) mb.ns_id, hfl]
    rfl
  have hscan : ctxScan (reloadResult s h mb buf) mb line
      ((renderedMarks (bufName s) mb.ns_id
        (renderMetas s mb.ns_id mb.regions 0 (-1)) s.nextMarkId).1.map Prod.snd) =
      ((renderMetas s mb.ns_id mb.regions 0 (-1)).find?
        (fun m => decide (m.startRow ≤ line ∧ line < m.endRow))).map
        (fun m => ⟨m.reg.source_buf_handle, m.srcStart + (line - m.startRow)⟩) := by
    refine ctxScan_rendered (reloadResult s h mb buf) mb (bufName s) _ s.nextMarkId line
      hlt (fun m hm => ?_) (fun m hm => ?_)
    · exact find?_key_of_nodup (fun r => r.source_extmark) mb.regions m.reg hnd
        (renderMetas_reg_mem s mb.ns_id mb.regions 0 (-1) m hm)
    · obtain ⟨lines₀, hrr, hend, hsl⟩ := renderMetas_mem_spec s mb.ns_id mb.regions 0 (-1)
        [] rfl m hm
      obtain ⟨se, srcbuf, hger, hgb, hl⟩ := renderRegion_some_elim hrr
      refine ⟨se, ?_⟩
      rw [get_extmark_range_congr
        (reloadResult_getBuf_ne s h mb buf (hsrc m.reg
          (renderMetas_reg_mem s mb.ns_id mb.regions 0 (-1) m hm)))]
      exact hger
  show multibuf_get_context (reloadResult s h mb buf) h line = _
  unfold multibuf_get_context
  simp only [hmb1, hext, hscan]

/-- Claim C9: a reload renders the regions' current text in exactly
registry order — the virtual document's content is the order-preserving
concatenation of each region's lines — and the registry itself (the
region list, in order) is untouched by the reload. -/
theorem C9_region_order_preserved (s : HostState) (h : Int) (mb : MultibufState)
    (buf : BufferState) (H : ReloadReady s h mb buf) :
    (getBuf (multibuf_reload s h).2 h).map (fun b => b.lines) =
      some ((mb.regions.map (renderedLines s mb.ns_id)).flatten) ∧
    assocGet h (multibuf_reload s h).2.multibuffers = some mb := by
  rw [reload_spec s h mb buf H]
  refine ⟨?_, ?_⟩
  · unfold reloadResult
    rw [getBuf_setBuf_self]
    rfl
  · unfold reloadResult
    rw [setBuf_multibuffers]
    exact H.2.2.2.1

/-- Claim C6: a region whose sticky-range resolution fails is skipped by
the reload — it contributes zero lines and no decoration carries its
identifier — while every other region still renders its current source
lines, and the reload call itself succeeds. -/
theorem C6_reload_partial_failure (s : HostState) (h : Int) (mb : MultibufState)
    (buf : BufferState) (r₀ : RegionState) (H : ReloadReady s h mb buf)
    (hr₀ : r₀ ∈ mb.regions) (hfail : renderRegion s mb.ns_id r₀ = none) :
    (multibuf_reload s h).1 = .ok () ∧
    renderedLines s mb.ns_id r₀ = [] ∧
    (∃ bufF, getBuf (multibuf_reload s h).2 h = some bufF ∧
      bufF.lines = (mb.regions.map (renderedLines s mb.ns_id)).flatten ∧
      (∀ p ∈ bufF.marks, p.2.id ≠ r₀.source_extmark)) := by
  obtain ⟨hsync, hbor, hfuel, hmb, hhd, hb, hlen, hns, hsrc, hlt, hnd⟩ := H
  rw [reload_spec s h mb buf ⟨hsync, hbor, hfuel, hmb, hhd, hb, hlen, hns, hsrc, hlt, hnd⟩]
  refine ⟨rfl, by simp [renderedLines, hfail], ?_⟩
  refine ⟨_, by unfold reloadResult; rw [getBuf_setBuf_self], rfl, ?_⟩
  intro p hp he
  have hfound : ((renderedMarks (bufName s) mb.ns_id
      (renderMetas s mb.ns_id mb.regions 0 (-1)) s.nextMarkId).1.map Prod.snd).find?
      (fun mk => mk.id == r₀.source_extmark) = none := by
    rw [renderedMarks_find (bufName s) mb.ns_id _ s.nextMarkId r₀.source_extmark
      ((renderMetas_ids_sublist s mb.ns_id mb.regions 0 (-1)).nodup hnd)
      (fun m hm => hlt m.reg (renderMetas_reg_mem s mb.ns_id mb.regions 0 (-1) m hm))
      (hlt r₀ hr₀)]
    rw [renderMetas_find_of_none s mb.ns_id mb.regions 0 (-1) r₀ hnd hr₀ hfail]
    rfl
  have hmem : p.2 ∈ (renderedMarks (bufName s) mb.ns_id
      (renderMetas s mb.ns_id mb.regions 0 (-1)) s.nextMarkId).1.map Prod.snd :=
    List.mem_map_of_mem _ hp
  have := List.find?_eq_none.mp hfound p.2 hmem
  simp only [beq_iff_eq] at this
  exact this he

/-- Claim C7: after a successful reload (guard free, host healthy) the
virtual document's decorations are exactly the rendered decoration list
computed from the current region registry — the namespace is cleared and
rewritten — and a reload that fails (on a healthy host) leaves the whole
state, in particular the decorations, untouched. -/
theorem C7_decorations_reflect_regions (s : HostState) (h : Int) (mb : MultibufState)
    (buf : BufferState) (s₂ : HostState) (h₂ : Int) :
    (ReloadReady s h mb buf →
      ∃ bufF, getBuf (multibuf_reload s h).2 h = some bufF ∧
        bufF.marks = (renderedMarks (bufName s) mb.ns_id
          (renderMetas s mb.ns_id mb.regions 0 (-1)) s.nextMarkId).1) ∧
    (s₂.setExtmarkFuel = none → s₂.isSyncing = false →
      ∀ e, (multibuf_reload s₂ h₂).1 = .error e → (multibuf_reload s₂ h₂).2 = s₂) := by
  refine ⟨fun H => ?_, fun hf hs e he => reload_fail s₂ h₂ hf hs e he⟩
  rw [reload_spec s h mb buf H]
  refine ⟨_, by unfold reloadResult; rw [getBuf_setBuf_self], rfl⟩

/-- Claim C8: divergence from the spec — a range with
`start_row > end_row` is indeed skipped by the range loop without touching
the registry, but the call does not succeed: after the loop the function
triggers a reload while still holding the mutable registry borrow, so the
nested reload's re-borrow panics with a `BorrowMutError`, and the
`add_regions` call with the single range `(5, 2)` returns that panic
instead of `Ok` (zero regions are added, as the spec says). -/
theorem C8_add_regions_invalid_range_panics :
    (multibuf_add_buffer exState ⟨10, 1, [⟨5, 2⟩]⟩).1 = .error borrowPanic ∧
    (assocGet 10 (multibuf_add_buffer exState ⟨10, 1, [⟨5, 2⟩]⟩).2.multibuffers).map
      (fun m => m.regions) = some exRegions ∧
    (multibuf_add_buffer exState ⟨10, 1, [⟨5, 2⟩]⟩).2 = exState := by
  refine ⟨rfl, rfl, rfl⟩

/-- Claim C10: `add_regions` is not atomic on failure — when the sticky
range for the second of two valid ranges fails to be created after the
first succeeded, the call reports the error, yet the region appended for
the first range remains in the registry; the watch registration and the
triggered reload never take place (the watch table and the virtual
document are untouched). -/
theorem C10_add_regions_not_atomic (s : HostState) (mbh src : Int) (mb : MultibufState)
    (srcbuf : BufferState) (a₁ b₁ a₂ b₂ : Nat)
    (hfuel : s.setExtmarkFuel = some 1)
    (hgb : getBuf s src = some srcbuf)
    (hmb : assocGet mbh s.multibuffers = some mb)
    (h₁ : a₁ ≤ b₁) (h₂ : a₂ ≤ b₂) (hne : src ≠ mbh) :
    (multibuf_add_buffer s ⟨mbh, src, [⟨a₁, b₁⟩, ⟨a₂, b₂⟩]⟩).1 =
      .error "set_extmark failed" ∧
    (assocGet mbh (multibuf_add_buffer s
        ⟨mbh, src, [⟨a₁, b₁⟩, ⟨a₂, b₂⟩]⟩).2.multibuffers).map (fun m => m.regions) =
      some (mb.regions ++ [⟨src, s.nextMarkId⟩]) ∧
    (multibuf_add_buffer s ⟨mbh, src, [⟨a₁, b₁⟩, ⟨a₂, b₂⟩]⟩).2.sourceToMbuf =
      s.sourceToMbuf ∧
    getBuf (multibuf_add_buffer s ⟨mbh, src, [⟨a₁, b₁⟩, ⟨a₂, b₂⟩]⟩).2 mbh =
      getBuf s mbh := by
  have hrun : multibuf_add_buffer s ⟨mbh, src, [⟨a₁, b₁⟩, ⟨a₂, b₂⟩]⟩ =
      (.error "set_extmark failed",
       { addFailState { s with mbBorrowed := true } src mbh mb.ns_id a₁ b₁ srcbuf with
         mbBorrowed := false }) := by
    unfold multibuf_add_buffer
    simp only [hgb, Option.isNone_some, Bool.false_eq_true, if_false]
    simp only [show assocGet mbh ({ s with mbBorrowed := true } :
      HostState).multibuffers = some mb from hmb]
    rw [addRegionsLoop_two_fail src mbh mb.ns_id a₁ b₁ a₂ b₂
      ({ s with mbBorrowed := true } : HostState) srcbuf
      (show getBuf ({ s with mbBorrowed := true } : HostState) src = some srcbuf from hgb)
      (show ({ s with mbBorrowed := true } : HostState).setExtmarkFuel = some 1 from hfuel)
      h₁ h₂]
  rw [hrun]
  refine ⟨rfl, ?_, rfl, ?_⟩
  · exact assocGet_pushRegion_clear _ mbh ⟨src, s.nextMarkId⟩ mb hmb
  · exact assocGet_assocSet_ne _ _ (fun he => hne he.symm)

/-! ## The running example is reload-ready, and concrete instantiations
of the claims -/

theorem exReady : ReloadReady exState 10 exMb exMbufBuf :=
  ⟨rfl, rfl, rfl, rfl, rfl, rfl, by decide, by decide, by decide, by decide, by decide⟩

theorem exReadyDel : ReloadReady exStateDel 10 exMb exMbufBuf :=
  ⟨rfl, rfl, rfl, rfl, rfl, rfl, by decide, by decide, by decide, by decide, by decide⟩

theorem C1_reload_write_roundtrip_witness :
    ReloadReady exState 10 exMb exMbufBuf ∧
    (multibuf_write (multibuf_reload exState 10).2 10).1 = .ok () :=
  ⟨exReady, (C1_reload_write_roundtrip exState 10 exMb exMbufBuf exReady).1⟩

theorem C2_guard_reentrancy_witness :
    exStateSync.isSyncing = true ∧
    multibuf_reload exStateSync 10 = (.ok (), exStateSync) :=
  ⟨rfl, ((C2_guard_reentrancy exStateSync 10 1).1 rfl).1⟩

theorem C3_reload_idempotent_witness :
    ReloadReady exState 10 exMb exMbufBuf ∧
    (renderAll exState exMb.ns_id exMb.regions).length ≤ USIZE_MAX ∧
    (multibuf_reload (multibuf_reload exState 10).2 10).1 = .ok () :=
  ⟨exReady, by decide,
    (C3_reload_idempotent exState 10 exMb exMbufBuf exReady (by decide)).1⟩

theorem C4_write_failures_swallowed_witness :
    exState.isSyncing = false ∧ exState.mbBorrowed = false ∧
    (multibuf_write exState 10).1 = .ok () :=
  ⟨rfl, rfl, (C4_write_failures_swallowed exState 10 rfl rfl).2.1 exMb exMbufBuf rfl rfl⟩

theorem C5_get_context_resolution_witness :
    ReloadReady exState 10 exMb exMbufBuf ∧
    (multibuf_get_context (multibuf_reload exState 10).2 10 0).2 =
      (multibuf_reload exState 10).2 :=
  ⟨exReady,
    congrArg Prod.snd (C5_get_context_resolution exState 10 exMb exMbufBuf exReady 0)⟩

theorem C6_reload_partial_failure_witness :
    ReloadReady exStateDel 10 exMb exMbufBuf ∧
    (⟨1, 1⟩ : RegionState) ∈ exMb.regions ∧
    renderRegion exStateDel exMb.ns_id ⟨1, 1⟩ = none ∧
    (multibuf_reload exStateDel 10).1 = .ok () ∧
    renderedLines exStateDel exMb.ns_id ⟨1, 1⟩ = [] :=
  ⟨exReadyDel, by decide, rfl,
    (C6_reload_partial_failure exStateDel 10 exMb exMbufBuf ⟨1, 1⟩ exReadyDel (by decide)
      rfl).1,
    (C6_reload_partial_failure exStateDel 10 exMb exMbufBuf ⟨1, 1⟩ exReadyDel (by decide)
      rfl).2.1⟩

theorem C7_decorations_reflect_regions_witness :
    ReloadReady exState 10 exMb exMbufBuf ∧
    (∃ bufF, getBuf (multibuf_reload exState 10).2 10 = some bufF ∧
      bufF.marks = (renderedMarks (bufName exState) exMb.ns_id
        (renderMetas exState exMb.ns_id exMb.regions 0 (-1)) exState.nextMarkId).1) :=
  ⟨exReady,
    (C7_decorations_reflect_regions exState 10 exMb exMbufBuf exState 10).1 exReady⟩

theorem C9_region_order_preserved_witness :
    ReloadReady exState 10 exMb exMbufBuf ∧
    assocGet 10 (multibuf_reload exState 10).2.multibuffers = some exMb :=
  ⟨exReady, (C9_region_order_preserved exState 10 exMb exMbufBuf exReady).2⟩

theorem C10_add_regions_not_atomic_witness :
    exStateFuel.setExtmarkFuel = some 1 ∧
    (multibuf_add_buffer exStateFuel ⟨10, 1, [⟨0, 1⟩, ⟨0, 2⟩]⟩).1 =
      .error "set_extmark failed" :=
  ⟨rfl, (C10_add_regions_not_atomic exStateFuel 10 1 exMb exSrcA 0 1 0 2 rfl rfl rfl
    (by decide) (by decide) (by decide)).1⟩

end Multibuffer
